import Mathlib

/-!
Verification of the large-response handling subsystem of the
`mcp-iop-ticketing-server` (file `src/large-response-handler.ts`).

The embedding models JSON values as the inductive `JValue` (numbers are
restricted to arbitrary-precision integers; IEEE doubles agree with this on
the integer payloads the claims quantify over), `JSON.stringify` as
`stringifyChars`, `JSON.parse` as `parseTop` (on the whitespace-free grammar
`JSON.stringify` emits, which is the only text this code ever parses), and a
JavaScript string's `.length` as `jlen`, the UTF-16 code-unit count.

The handler's mutable state (the `responses` Map and the files written under
the temp directory, keyed by response id) is an explicit `HState` record that
every operation threads.  `Date.now()` and the `crypto.randomBytes` fresh id
are explicit arguments (`now`, `freshId`); `new Date(x).getTime()` — a host
date parser the repository does not define — is an explicit function
argument `dp` of the query engine, so theorems about it hold for every host
parser.  Thrown JavaScript errors are `Except.error` carrying the error's
`.message` text.
-/

namespace LRH

mutual

/-- JSON value: the data model of the handler.  `obj` keeps fields in
insertion/enumeration order, as JavaScript objects do.  A field is its
own mutual inductive (rather than a pair) so that the recursive
functions over values compile structurally and reduce definitionally. -/
inductive JValue where
  | null
  | bool (b : Bool)
  | num (i : Int)
  | str (s : String)
  | arr (elems : List JValue)
  | obj (fields : List JField)

/-- One object field: a key and a value. -/
inductive JField where
  | mk (key : String) (val : JValue)

end

/-- The key of a field. -/
def JField.key : JField → String
  | .mk k _ => k

/-- The value of a field. -/
def JField.val : JField → JValue
  | .mk _ v => v

/-- First field with the given key, as JavaScript property lookup on an
object with unique keys. -/
def jlookup (fs : List JField) (k : String) : Option JValue :=
  (fs.find? (fun f => f.key == k)).map JField.val

/-- Left brace character, written numerically. -/
def lbrace : Char := Char.ofNat 123

/-- Right brace character, written numerically. -/
def rbrace : Char := Char.ofNat 125

/-- Decimal digit (also low hex digit) to character. -/
def hexDig (n : Nat) : Char :=
  match n with
  | 0 => '0' | 1 => '1' | 2 => '2' | 3 => '3' | 4 => '4'
  | 5 => '5' | 6 => '6' | 7 => '7' | 8 => '8' | 9 => '9'
  | 10 => 'a' | 11 => 'b' | 12 => 'c' | 13 => 'd' | 14 => 'e'
  | _ => 'f'

/-- Reversed decimal digits, with explicit fuel so that the function is
structurally recursive and reduces definitionally. -/
def natToRevDigitsF : Nat → Nat → List Char
  | 0, _ => []
  | fuel + 1, n =>
    if n < 10 then [hexDig n]
    else hexDig (n % 10) :: natToRevDigitsF fuel (n / 10)

/-- Reversed decimal digits of a natural number. -/
def natToRevDigits (n : Nat) : List Char := natToRevDigitsF (n + 1) n

/-- Decimal representation of a natural number, as JavaScript prints it. -/
def natRepr (n : Nat) : List Char := (natToRevDigits n).reverse

/-- Decimal representation of an integer, as JavaScript prints it. -/
def intRepr (i : Int) : List Char :=
  if i < 0 then '-' :: natRepr i.natAbs else natRepr i.toNat

/-- String form of a natural number. -/
def natStr (n : Nat) : String := String.mk (natRepr n)

/-- String form of an integer. -/
def intStr (i : Int) : String := String.mk (intRepr i)

/-- The escape `JSON.stringify` applies to one character of a string:
quote, backslash, the five short control escapes, `\u00XX` for the other
control characters, and everything else verbatim. -/
def escapeChar (c : Char) : List Char :=
  if c = '"' then ['\\', '"']
  else if c = '\\' then ['\\', '\\']
  else if c = Char.ofNat 8 then ['\\', 'b']
  else if c = Char.ofNat 9 then ['\\', 't']
  else if c = Char.ofNat 10 then ['\\', 'n']
  else if c = Char.ofNat 12 then ['\\', 'f']
  else if c = Char.ofNat 13 then ['\\', 'r']
  else if c.toNat < 32 then
    ['\\', 'u', '0', '0', hexDig (c.toNat / 16), hexDig (c.toNat % 16)]
  else [c]

/-- Escape every character of a string body. -/
def escapeList : List Char → List Char
  | [] => []
  | c :: cs => escapeChar c ++ escapeList cs

mutual

/-- Characters of `JSON.stringify(v)` (no whitespace, insertion-order
fields, decimal integers). -/
def stringifyChars : JValue → List Char
  | .null => "null".data
  | .bool true => "true".data
  | .bool false => "false".data
  | .num i => intRepr i
  | .str s => '"' :: escapeList s.data ++ ['"']
  | .arr [] => ['[', ']']
  | .arr (e :: es) => '[' :: stringifyChars e ++ stringifyArrTail es
  | .obj [] => [lbrace, rbrace]
  | .obj (f :: fs) => lbrace :: stringifyField f ++ stringifyObjTail fs

/-- Tail of a serialized array: `,e,e…]` after the first element. -/
def stringifyArrTail : List JValue → List Char
  | [] => [']']
  | e :: es => ',' :: stringifyChars e ++ stringifyArrTail es

/-- One serialized object field, `"key":value`. -/
def stringifyField : JField → List Char
  | .mk k v => '"' :: escapeList k.data ++ '"' :: ':' :: stringifyChars v

/-- Tail of a serialized object after the first field. -/
def stringifyObjTail : List JField → List Char
  | [] => [rbrace]
  | f :: fs => ',' :: stringifyField f ++ stringifyObjTail fs

end

/-- `JSON.stringify` as a Lean `String`. -/
def stringifyStr (v : JValue) : String := String.mk (stringifyChars v)

/-- UTF-16 code units of one character: what JavaScript's `.length`
counts. -/
def cu16 (c : Char) : Nat := if c.toNat < 65536 then 1 else 2

/-- JavaScript `.length` of a character list. -/
def jlen (cs : List Char) : Nat := (cs.map cu16).sum

/-- JavaScript `.length` of a string. -/
def jlenStr (s : String) : Nat := jlen s.data

/-- UTF-8 byte count of one character. -/
def cu8 (c : Char) : Nat :=
  if c.toNat < 128 then 1
  else if c.toNat < 2048 then 2
  else if c.toNat < 65536 then 3
  else 4

/-- UTF-8 byte length of a string: what `fs.writeFile` actually puts on
disk for it. -/
def utf8Len (s : String) : Nat := (s.data.map cu8).sum

/-- Hex digit value of a character, `none` when it is not a hex digit. -/
def hexVal (c : Char) : Option Nat :=
  if 48 ≤ c.toNat ∧ c.toNat ≤ 57 then some (c.toNat - 48)
  else if 97 ≤ c.toNat ∧ c.toNat ≤ 102 then some (c.toNat - 87)
  else if 65 ≤ c.toNat ∧ c.toNat ≤ 70 then some (c.toNat - 55)
  else none

/-- Decimal digit test. -/
def isDig (c : Char) : Bool := 48 ≤ c.toNat && c.toNat ≤ 57

/-- Decimal digit value. -/
def digVal (c : Char) : Nat := c.toNat - 48

/-- Prepend a character to the string a string-body parse returned. -/
def mapCons (c : Char) (o : Option (List Char × List Char)) :
    Option (List Char × List Char) :=
  o.map (fun p => (c :: p.1, p.2))

/-- Parse the body of a JSON string up to and past its closing quote,
unescaping as `JSON.parse` does on the escapes `JSON.stringify` emits. -/
def parseStringBody : List Char → Option (List Char × List Char)
  | [] => none
  | c :: rest =>
    if c = '"' then some ([], rest)
    else if c = '\\' then
      match rest with
      | [] => none
      | e :: r =>
        if e = '"' then mapCons '"' (parseStringBody r)
        else if e = '\\' then mapCons '\\' (parseStringBody r)
        else if e = 'b' then mapCons (Char.ofNat 8) (parseStringBody r)
        else if e = 't' then mapCons (Char.ofNat 9) (parseStringBody r)
        else if e = 'n' then mapCons (Char.ofNat 10) (parseStringBody r)
        else if e = 'f' then mapCons (Char.ofNat 12) (parseStringBody r)
        else if e = 'r' then mapCons (Char.ofNat 13) (parseStringBody r)
        else if e = 'u' then
          match r with
          | h1 :: h2 :: h3 :: h4 :: r2 =>
            match hexVal h1, hexVal h2, hexVal h3, hexVal h4 with
            | some a, some b, some c3, some d =>
              mapCons (Char.ofNat (4096 * a + 256 * b + 16 * c3 + d))
                (parseStringBody r2)
            | _, _, _, _ => none
          | _ => none
        else none
    else mapCons c (parseStringBody rest)

/-- Parse a maximal nonempty run of decimal digits into a natural
number. -/
def parseDigits (cs : List Char) : Option (Nat × List Char) :=
  let ds := cs.takeWhile isDig
  if ds.isEmpty then none
  else some (ds.foldl (fun a c => 10 * a + digVal c) 0, cs.dropWhile isDig)

/-- Parse a JSON integer (optional minus sign, then digits). -/
def parseNum (cs : List Char) : Option (Int × List Char) :=
  if cs.head? = some '-' then
    (parseDigits cs.tail).map (fun p => (-(p.1 : Int), p.2))
  else (parseDigits cs).map (fun p => ((p.1 : Int), p.2))

/-- Parse an object key together with the following colon. -/
def parseKey : List Char → Option (String × List Char)
  | [] => none
  | c :: r =>
    if c = '"' then
      match parseStringBody r with
      | some (k, ':' :: r2) => some (String.mk k, r2)
      | _ => none
    else none

mutual

/-- Fuel-indexed recursive-descent parser for the grammar
`JSON.stringify` emits.  Returns the value and the unconsumed rest. -/
def parseVal : Nat → List Char → Option (JValue × List Char)
  | 0, _ => none
  | _ + 1, [] => none
  | fuel + 1, c :: cs =>
    if isDig c || c = '-' then
      (parseNum (c :: cs)).map (fun p => (JValue.num p.1, p.2))
    else if c = 'n' then
      match cs with
      | 'u' :: 'l' :: 'l' :: r => some (.null, r)
      | _ => none
    else if c = 't' then
      match cs with
      | 'r' :: 'u' :: 'e' :: r => some (.bool true, r)
      | _ => none
    else if c = 'f' then
      match cs with
      | 'a' :: 'l' :: 's' :: 'e' :: r => some (.bool false, r)
      | _ => none
    else if c = '"' then
      (parseStringBody cs).map (fun p => (JValue.str (String.mk p.1), p.2))
    else if c = '[' then
      match cs with
      | [] => none
      | c2 :: cs2 =>
        if c2 = ']' then some (.arr [], cs2)
        else
          match parseVal fuel cs with
          | none => none
          | some (e, r) =>
            match parseArrTail fuel r with
            | none => none
            | some (es, r2) => some (.arr (e :: es), r2)
    else if c = lbrace then
      match cs with
      | c2 :: r0 =>
        if c2 = rbrace then some (.obj [], r0)
        else
          match parseKey cs with
          | none => none
          | some (k, r1) =>
            match parseVal fuel r1 with
            | none => none
            | some (v, r2) =>
              match parseObjTail fuel r2 with
              | none => none
              | some (fs, r3) => some (.obj (.mk k v :: fs), r3)
      | [] => none
    else none

/-- Parse the rest of an array after one element: `]` or `,elem…`. -/
def parseArrTail : Nat → List Char → Option (List JValue × List Char)
  | 0, _ => none
  | _ + 1, [] => none
  | fuel + 1, c :: cs =>
    if c = ']' then some ([], cs)
    else if c = ',' then
      match parseVal fuel cs with
      | none => none
      | some (e, r) =>
        match parseArrTail fuel r with
        | none => none
        | some (es, r2) => some (e :: es, r2)
    else none

/-- Parse the rest of an object after one field. -/
def parseObjTail : Nat → List Char → Option (List JField × List Char)
  | 0, _ => none
  | _ + 1, [] => none
  | fuel + 1, c :: cs =>
    if c = rbrace then some ([], cs)
    else if c = ',' then
      match parseKey cs with
      | none => none
      | some (k, r1) =>
        match parseVal fuel r1 with
        | none => none
        | some (v, r2) =>
          match parseObjTail fuel r2 with
          | none => none
          | some (fs, r3) => some (.mk k v :: fs, r3)
    else none

end

/-- Model of `JSON.parse` on the whitespace-free text this subsystem
writes: parse one value and require the input to be fully consumed. -/
def parseTop (s : String) : Option JValue :=
  match parseVal (s.data.length + 1) s.data with
  | some (v, []) => some v
  | _ => none

/-- JavaScript `typeof` of a JSON value (`typeof null` is `"object"`,
and so is an array's). -/
def jsTypeof : JValue → String
  | .null => "object"
  | .bool _ => "boolean"
  | .num _ => "number"
  | .str _ => "string"
  | .arr _ => "object"
  | .obj _ => "object"

/-- JavaScript truthiness of a JSON value (`NaN` does not arise: model
numbers are integers). -/
def jsTruthy : JValue → Bool
  | .null => false
  | .bool b => b
  | .num i => i != 0
  | .str s => s != ""
  | .arr _ => true
  | .obj _ => true

/-- The own enumerable index keys of an array of length `len`:
`"0" … "len-1"`. -/
def arrKeys (len : Nat) : List String :=
  (List.range len).map (fun i => String.mk (natRepr i))

/-- The string-keyed properties of `Object.prototype` (ECMA-262 §20.1.3
plus the Annex B legacy accessors Node implements).  Every plain object
and array inherits these through the prototype chain, so `'toString' in
{}` is true in the host. -/
def objProtoKeys : List String :=
  ["constructor", "hasOwnProperty", "isPrototypeOf", "propertyIsEnumerable",
   "toLocaleString", "toString", "valueOf", "__defineGetter__",
   "__defineSetter__", "__lookupGetter__", "__lookupSetter__", "__proto__"]

/-- The string-keyed properties of `Array.prototype` (ECMA-262 §23.1.3,
ES2023 / Node 20 baseline), inherited by every array. -/
def arrayProtoKeys : List String :=
  ["at", "concat", "constructor", "copyWithin", "entries", "every", "fill",
   "filter", "find", "findIndex", "findLast", "findLastIndex", "flat",
   "flatMap", "forEach", "includes", "indexOf", "join", "keys",
   "lastIndexOf", "map", "pop", "push", "reduce", "reduceRight", "reverse",
   "shift", "slice", "some", "sort", "splice", "toLocaleString",
   "toReversed", "toSorted", "toSpliced", "toString", "unshift", "values",
   "with"]

/-- The string-keyed properties of `String.prototype` (ECMA-262 §22.1.3,
ES2024 / Node 20 baseline), inherited by every string primitive. -/
def strProtoKeys : List String :=
  ["anchor", "at", "big", "blink", "bold", "charAt", "charCodeAt",
   "codePointAt", "concat", "constructor", "endsWith", "fixed",
   "fontcolor", "fontsize", "includes", "indexOf", "isWellFormed",
   "italics", "lastIndexOf", "link", "localeCompare", "match", "matchAll",
   "normalize", "padEnd", "padStart", "repeat", "replace", "replaceAll",
   "search", "slice", "small", "split", "startsWith", "strike", "sub",
   "substr", "substring", "sup", "toLocaleLowerCase", "toLocaleUpperCase",
   "toLowerCase", "toString", "toUpperCase", "toWellFormed", "trim",
   "trimEnd", "trimStart", "valueOf"]

/-- The string-keyed properties of `Number.prototype` (ECMA-262 §21.1.3). -/
def numProtoKeys : List String :=
  ["constructor", "toExponential", "toFixed", "toLocaleString",
   "toPrecision", "toString", "valueOf"]

/-- The string-keyed properties of `Boolean.prototype` (ECMA-262 §20.3.3). -/
def boolProtoKeys : List String :=
  ["constructor", "toString", "valueOf"]

/-- The string-keyed properties visible on a built-in method: its own
`length` and `name` plus `Function.prototype` (ECMA-262 §20.2.3 with the
Annex B `arguments`/`caller` accessors) and the `Object.prototype` chain
behind it. -/
def fnKeys : List String :=
  ["length", "name", "apply", "arguments", "bind", "call", "caller",
   "constructor", "toString"] ++ objProtoKeys

/-- Membership test of the JavaScript `in` operator for object-typed
JSON values, including the prototype chain: own keys plus
`Object.prototype` names for plain objects; index keys, `length`,
`Array.prototype` and `Object.prototype` names for arrays.  `false` on
other values — call `jsInE` where the host would throw. -/
def jsInB (key : String) : JValue → Bool
  | .obj fs => fs.any (fun f => f.key == key) || objProtoKeys.contains key
  | .arr es => (arrKeys es.length).contains key || key == "length"
      || arrayProtoKeys.contains key || objProtoKeys.contains key
  | _ => false

mutual

/-- JavaScript `String(v)`, used only in error-message text. -/
def jsDisplay : JValue → String
  | .null => "null"
  | .bool true => "true"
  | .bool false => "false"
  | .num i => intStr i
  | .str s => s
  | .arr es => String.intercalate "," (jsDisplayList es)
  | .obj _ => "[object Object]"

/-- Element-wise `String(v)` for the array case of `jsDisplay`. -/
def jsDisplayList : List JValue → List String
  | [] => []
  | e :: es => jsDisplay e :: jsDisplayList es

end

/-- Index of the array element an index key denotes, if any. -/
def arrIdxOfKey (len : Nat) (key : String) : Option Nat :=
  (List.range len).find? (fun i => String.mk (natRepr i) == key)

/-- Property read `v[key]` on a value known to possess `key` (after a
successful `in` check): first-match lookup on objects, index or
`length` on arrays.  The default `null` is unreachable. -/
def jsGetD (v : JValue) (key : String) : JValue :=
  match v with
  | .obj fs => (jlookup fs key).getD .null
  | .arr es =>
    if key == "length" then .num es.length
    else match arrIdxOfKey es.length key with
      | some i => (es.get? i).getD .null
      | none => .null
  | _ => .null

/-- `Object.keys` on a non-null value: own enumerable keys (insertion
order) for objects, index strings for arrays and strings, empty for
other primitives. -/
def objKeys : JValue → List String
  | .obj fs => fs.map JField.key
  | .arr es => arrKeys es.length
  | .str s => arrKeys (jlenStr s)
  | _ => []

/-- `Object.keys` where the argument may be `null`, which throws a
`TypeError`. -/
def objKeysE : JValue → Except String (List String)
  | .null => .error "Cannot convert undefined or null to object"
  | v => .ok (objKeys v)

/-- `Array.isArray`. -/
def isArray : JValue → Bool
  | .arr _ => true
  | _ => false

/-- A value the navigation walk or a property read can land on: a JSON
value, a built-in method inherited through a prototype chain, or one of
the two prototype objects this data can reach (`Object.prototype` and
`Array.prototype`).  A built-in method's own reachable properties
(`fn.length`, `fn.name`, `fn.__proto__`, …) are collapsed to `.fn` —
the program only ever asks `Array.isArray` of them, which is false for
all; likewise a primitive's prototype object is collapsed to `.protoO`,
with which it agrees on `typeof`, truthiness, `JSON.stringify` and
`Object.keys`, the only operations the program performs there. -/
inductive NVal where
  | js : JValue → NVal
  | fn : NVal
  | protoO : NVal
  | protoA : NVal

/-- `typeof` on a navigation value (`typeof Array.prototype` is
`object`, a built-in method is `function`). -/
def jsTypeofN : NVal → String
  | .js v => jsTypeof v
  | .fn => "function"
  | .protoO => "object"
  | .protoA => "object"

/-- Truthiness of a navigation value: functions and prototype objects
are truthy. -/
def jsTruthyN : NVal → Bool
  | .js v => jsTruthy v
  | _ => true

/-- The `in` membership on a navigation value, prototype chain
included.  Primitives are left `false` — callers either throw first
(`jsInE`) or are behind a `typeof === 'object'` guard. -/
def inNV (key : String) : NVal → Bool
  | .js v => jsInB key v
  | .fn => fnKeys.contains key
  | .protoO => objProtoKeys.contains key
  | .protoA => key == "length" || arrayProtoKeys.contains key
      || objProtoKeys.contains key

/-- The JavaScript `in` operator on a navigation value: membership on
object-typed values (functions included), a thrown `TypeError` on
primitives and `null`. -/
def jsInE (key : String) (nv : NVal) : Except String Bool :=
  match nv with
  | .js (.obj _) => .ok (inNV key nv)
  | .js (.arr _) => .ok (inNV key nv)
  | .js v =>
    .error ("Cannot use 'in' operator to search for '" ++ key ++ "' in "
      ++ jsDisplay v)
  | _ => .ok (inNV key nv)

/-- Property read `cur[key]` with the prototype chain: own properties
shadow inherited ones (`JSON.parse` creates a literal own `__proto__`
key as a data property), `__proto__` reads the prototype object, other
chain hits are built-in methods.  `none` is `undefined`; reading on
`null` is handled by the throwing wrapper `jsGetE`.  String index keys
are counted in UTF-16 units and read as the scalar at that position
(exact for strings without astral characters). -/
def getN : NVal → String → Option NVal
  | .js (.obj fs), k =>
    match jlookup fs k with
    | some v => some (.js v)
    | none =>
      if k = "__proto__" then some .protoO
      else if objProtoKeys.contains k then some .fn
      else none
  | .js (.arr es), k =>
    if k == "length" then some (.js (.num es.length))
    else match arrIdxOfKey es.length k with
    | some i => some (.js ((es.get? i).getD .null))
    | none =>
      if k = "__proto__" then some .protoA
      else if arrayProtoKeys.contains k || objProtoKeys.contains k then
        some .fn
      else none
  | .js (.str s), k =>
    if k == "length" then some (.js (.num (jlenStr s)))
    else match arrIdxOfKey (jlenStr s) k with
    | some i => some (.js (.str (String.mk ((s.data.get? i).toList))))
    | none =>
      if k = "__proto__" then some .protoO
      else if strProtoKeys.contains k || objProtoKeys.contains k then
        some .fn
      else none
  | .js (.num _), k =>
    if k = "__proto__" then some .protoO
    else if numProtoKeys.contains k || objProtoKeys.contains k then some .fn
    else none
  | .js (.bool _), k =>
    if k = "__proto__" then some .protoO
    else if boolProtoKeys.contains k || objProtoKeys.contains k then some .fn
    else none
  | .js .null, _ => none
  | .fn, k => if fnKeys.contains k then some .fn else none
  | .protoO, k =>
    if k = "__proto__" then some (.js .null)
    else if objProtoKeys.contains k then some .fn
    else none
  | .protoA, k =>
    if k == "length" then some (.js (.num 0))
    else if k = "__proto__" then some .protoO
    else if arrayProtoKeys.contains k || objProtoKeys.contains k then some .fn
    else none

/-- Property read `v[key]` on a JSON value as the host performs it,
prototype chain included; reading a property of `null` throws. -/
def jsGetE (v : JValue) (key : String) : Except String (Option NVal) :=
  match v with
  | .null =>
    .error ("Cannot read properties of null (reading '" ++ key ++ "')")
  | _ => .ok (getN (.js v) key)

/-- `Object.keys` of a navigation value: the prototype objects have no
enumerable own properties. -/
def objKeysN : NVal → List String
  | .js v => objKeys v
  | _ => []

/-- `Array.isArray` on a navigation value: `Array.prototype` itself is
an array exotic object. -/
def isArrayN : NVal → Bool
  | .js v => isArray v
  | .protoA => true
  | _ => false

/-- `.length` of an array-typed navigation value (`Array.prototype` has
length 0). -/
def lenN : NVal → Nat
  | .js (.arr es) => es.length
  | _ => 0

/-- Element read `a[i]` on an array-typed navigation value
(`Array.prototype` has no elements). -/
def elemN : NVal → Nat → Option NVal
  | .js (.arr es), i => (es.get? i).map .js
  | _, _ => none

/-- `JSON.stringify` of a navigation value: `undefined` (`none`) for a
function, `"{}"`/`"[]"` for the prototype objects (their own enumerable
key sets are empty). -/
def stringifyN : NVal → Option String
  | .js v => some (stringifyStr v)
  | .fn => none
  | .protoO => some (stringifyStr (.obj []))
  | .protoA => some (stringifyStr (.arr []))

/-- The JSON image of a navigation value returned to the caller: the
prototype objects serialize and behave exactly as the empty object and
empty array in every further operation of this subsystem. -/
def jimage : NVal → JValue
  | .js v => v
  | .fn => .null
  | .protoO => .obj []
  | .protoA => .arr []

/-- Character membership in a character list. -/
def charIn (t : Char) (cs : List Char) : Bool := cs.any (fun c => c == t)

/-- JavaScript `String.prototype.split` with a one-character separator. -/
def splitCharAux (sep : Char) : List Char → List Char → List (List Char)
  | [], acc => [acc.reverse]
  | c :: rest, acc =>
    if c = sep then acc.reverse :: splitCharAux sep rest []
    else splitCharAux sep rest (c :: acc)

/-- Split a character list on a separator character; `n` separators give
`n+1` pieces, exactly as `split` does in JavaScript. -/
def splitChar (sep : Char) (cs : List Char) : List (List Char) :=
  splitCharAux sep cs []

/-- JavaScript `replace(c, '')` with a one-character pattern: remove the
first occurrence only. -/
def removeFirstChar (t : Char) : List Char → List Char
  | [] => []
  | c :: rest => if c = t then rest else c :: removeFirstChar t rest

/-- JavaScript whitespace for `parseInt` trimming. -/
def jsWhite (c : Char) : Bool :=
  c == ' ' || c == Char.ofNat 9 || c == Char.ofNat 10 || c == Char.ofNat 13

/-- Digit-run part of `parseInt`, with the automatic `0x` hex prefix. -/
def parseIntDigits (cs : List Char) : Option Nat :=
  match cs with
  | '0' :: x :: r =>
    if x = 'x' ∨ x = 'X' then
      let hs := r.takeWhile (fun c => (hexVal c).isSome)
      if hs.isEmpty then none
      else some (hs.foldl (fun a c => 16 * a + (hexVal c).getD 0) 0)
    else some ((cs.takeWhile isDig).foldl (fun a c => 10 * a + digVal c) 0)
  | _ =>
    let ds := cs.takeWhile isDig
    if ds.isEmpty then none
    else some (ds.foldl (fun a c => 10 * a + digVal c) 0)

/-- JavaScript `parseInt(s)`: trim leading whitespace, optional sign,
then a digit prefix; `none` models `NaN`. -/
def jsParseInt (s : String) : Option Int :=
  let cs := s.data.dropWhile jsWhite
  match cs with
  | '-' :: r => (parseIntDigits r).map (fun n => -(n : Int))
  | '+' :: r => (parseIntDigits r).map (fun n => (n : Int))
  | _ => (parseIntDigits cs).map (fun n => (n : Int))

/-- Metadata of one stored response (`StoredResponse` in the source). -/
structure StoredResponse where
  id : String
  timestamp : Int
  size : Nat
  summary : JValue

/-- The handler's mutable state: the in-memory `responses` Map (as an
insertion-ordered association list with unique keys, like a JS `Map`)
and the temp-directory files, keyed by response id (the file written for
id `x` is `/tmp/mcp-iop-responses/x.json`; its text content is the
stored string). -/
structure HState where
  responses : List (String × StoredResponse)
  files : List (String × String)

/-- `Map.set`: replace in place when the key exists (a JS `Map` keeps
the original insertion position), else append. -/
def setAssoc {α : Type} (m : List (String × α)) (k : String) (v : α) :
    List (String × α) :=
  if m.any (fun p => p.1 == k) then
    m.map (fun p => if p.1 == k then (k, v) else p)
  else m ++ [(k, v)]

/-- `Map.get`: first entry with the key. -/
def lookupAssoc {α : Type} (m : List (String × α)) (k : String) : Option α :=
  (m.find? (fun p => p.1 == k)).map Prod.snd

/-- The response-size threshold, `MAX_RESPONSE_SIZE` in the source. -/
def MAX_RESPONSE_SIZE : Nat := 100000

/-- `createSummary`.  Field insertion order matches the source.  The
call `Object.keys(data[0])` throws a `TypeError` when the first array
element is `null` (`typeof null === 'object'`), which this model
propagates as an `Except.error`. -/
def createSummary (data : JValue) : Except String JValue :=
  match data with
  | .arr es =>
    let base : List JField :=
      [.mk "totalItems" (.num es.length),
       .mk "firstItems" (.arr (es.take 3)),
       .mk "structure" (.str "array")]
    match es.head? with
    | some h0 =>
      if jsTypeof h0 == "object" then
        match objKeysE h0 with
        | .error e => .error e
        | .ok ks =>
          .ok (.obj (base ++ [.mk "itemKeys" (.arr ((ks.take 10).map JValue.str))]))
      else .ok (.obj base)
    | none => .ok (.obj base)
  | .obj fs =>
    let base : List JField :=
      [.mk "structure" (.str "object"),
       .mk "keys" (.arr (((fs.map JField.key).take 20).map JValue.str))]
    match jlookup fs "data" with
    | some dv =>
      match dv with
      | .arr ds =>
        .ok (.obj (base ++
          [.mk "dataArrayLength" (.num ds.length), .mk "hasDataArray" (.bool true)]))
      | _ => .ok (.obj base)
    | none => .ok (.obj base)
  | _ => .ok (.obj [])

/-- Models `(size / 1024 / 1024).toFixed(2)`.  The host computes this on
an IEEE double; the model rounds the exact rational to two decimals.
No claim depends on this string's digits. -/
def mbString (size : Nat) : String :=
  let h := (size * 100 + 524288) / 1048576
  natStr (h / 100) ++ "." ++
    (if h % 100 < 10 then "0" ++ natStr (h % 100) else natStr (h % 100))

/-- The abbreviated envelope `handleResponse` returns for an oversized
value, field for field. -/
def mkEnvelope (id : String) (size : Nat) (summary : JValue) : JValue :=
  let m := mbString size
  .obj
    [.mk "_large_response" (.bool true),
     .mk "response_id" (.str id),
     .mk "size_bytes" (.num size),
     .mk "size_mb" (.str m),
     .mk "summary" summary,
     .mk "message" (.str ("Response too large (" ++ m
        ++ "MB). Use navigation tools to explore:")),
     .mk "available_tools" (.arr
       [.str "navigate_response - Browse the saved response structure",
        .str "query_response - Query specific paths in the response",
        .str "filter_response - Filter array results",
        .str "export_response - Export full or partial response"])]

/-- `cleanupOldResponses`: drop every metadata entry whose timestamp is
before `now` minus one hour and unlink its backing file (`fs.unlink`
failure is swallowed; removal of an absent file is a no-op here). -/
def cleanupOldResponses (now : Int) (st : HState) : HState :=
  let cutoff := now - 3600000
  let evict := (st.responses.filter
    (fun p => decide (p.2.timestamp < cutoff))).map Prod.fst
  { responses :=
      st.responses.filter (fun p => !decide (p.2.timestamp < cutoff)),
    files := st.files.filter (fun p => !evict.contains p.1) }

/-- `handleResponse(data)`: serialize, compare `.length` with the
threshold, pass small values through unchanged, and otherwise offload:
write the file, build the summary, record metadata, clean up old
entries, and return the envelope.  `now` is `Date.now()` and `freshId`
the generated hex id.  On the summary `TypeError` the model drops the
partially written file together with the rest of the state delta (no
claim inspects state after a failed offload). -/
def handleResponse (now : Int) (freshId : String) (data : JValue)
    (st : HState) : Except String (JValue × HState) :=
  let jsonString := stringifyStr data
  let size := jlenStr jsonString
  if size ≤ MAX_RESPONSE_SIZE then .ok (data, st)
  else
    let st1 : HState := { st with files := setAssoc st.files freshId jsonString }
    match createSummary data with
    | .error e => .error e
    | .ok summary =>
      let md : StoredResponse := ⟨freshId, now, size, summary⟩
      let st2 : HState :=
        { st1 with responses := setAssoc st1.responses freshId md }
      let st3 := cleanupOldResponses now st2
      .ok (mkEnvelope freshId size summary, st3)

/-- The state an offload leaves behind: the file written under the fresh
id, the metadata entry recorded, then the one-hour cleanup pass. -/
def offState (now : Int) (freshId : String) (data summary : JValue)
    (st : HState) : HState :=
  cleanupOldResponses now
    { responses := setAssoc st.responses freshId
        ⟨freshId, now, jlenStr (stringifyStr data), summary⟩,
      files := setAssoc st.files freshId (stringifyStr data) }

/-- The `Available responses:` list in the not-found error:
`join(', ') || 'none'`. -/
def keysList (st : HState) : String :=
  let j := String.intercalate ", " (st.responses.map Prod.fst)
  if j = "" then "none" else j

/-- Display of an index in error text; `none` (NaN) prints as `NaN`. -/
def idxDisp : Option Int → String
  | some i => intStr i
  | none => "NaN"

/-- The metadata lookup, file read and `JSON.parse` at the head of
`navigateResponse`.  A missing metadata entry and a missing file raise
the two distinct messages of the source (the latter is the catch-clause
translation of `ENOENT`).  The parse-failure message is unreachable on
files this subsystem writes. -/
def loadResponse (st : HState) (responseId : String) : Except String JValue :=
  match lookupAssoc st.responses responseId with
  | none =>
    .error ("Response " ++ responseId ++ " not found. Available responses: "
      ++ keysList st)
  | some _ =>
    match lookupAssoc st.files responseId with
    | none =>
      .error ("Response file not found for " ++ responseId
        ++ ". It may have been cleaned up.")
    | some content =>
      match parseTop content with
      | some v => .ok v
      | none => .error "Unexpected token in JSON"

/-- Missing-property message of the plain-segment branch, naming the
missing property and the first ten available keys. -/
def missingPropMsg (part : String) (keys : List String) : String :=
  "Property '" ++ part ++ "' not found. Available keys: "
    ++ String.intercalate ", " (keys.take 10)
    ++ (if keys.length > 10 then "..." else "")

/-- One loop iteration of the path walk in `navigateResponse`, past the
null/undefined guard.  The result `Option NVal` has `none` for
`undefined`, which only an out-of-grammar NaN index can produce. -/
def stepSegment (part : String) (current : NVal) :
    Except String (Option NVal) :=
  if charIn '[' part.data && charIn ']' part.data then
    match splitChar '[' part.data with
    | arrayName :: indexStr :: _ =>
      let index := jsParseInt (String.mk (removeFirstChar ']' indexStr))
      if arrayName.isEmpty then
        if isArrayN current then
          match index with
          | some i =>
            if i < 0 ∨ (lenN current : Int) ≤ i then
              .error ("Array index " ++ intStr i ++ " out of bounds (length: "
                ++ natStr (lenN current) ++ ")")
            else .ok (elemN current i.toNat)
          | none => .ok none
        else
          .error ("Cannot access index " ++ idxDisp index
            ++ " - current value is not an array")
      else
        let nm := String.mk arrayName
        match jsInE nm current with
        | .error e => .error e
        | .ok inb =>
          if !inb then
            .error ("Property '" ++ nm ++ "' not found in current object")
          else
            match getN current nm with
            | some a =>
              if isArrayN a then
                match index with
                | some i =>
                  if i < 0 ∨ (lenN a : Int) ≤ i then
                    .error ("Array index " ++ intStr i ++ " out of bounds for '"
                      ++ nm ++ "' (length: " ++ natStr (lenN a) ++ ")")
                  else .ok (elemN a i.toNat)
                | none => .ok none
              else .error ("Property '" ++ nm ++ "' is not an array")
            | none => .error ("Property '" ++ nm ++ "' is not an array")
    | _ => .error "Cannot read properties of undefined (reading 'replace')"
  else
    if jsTypeofN current != "object" then
      .error ("Cannot access property '" ++ part ++ "' - current value is "
        ++ jsTypeofN current)
    else match current with
      | .js .null =>
        .error ("Cannot access property '" ++ part ++ "' - current value is "
          ++ jsTypeof JValue.null)
      | cur =>
        if inNV part cur then .ok (getN cur part)
        else .error (missingPropMsg part (objKeysN cur))

/-- The `for (const part of parts)` walk, with the null/undefined guard
at the top of every iteration. -/
def navParts : List String → Option NVal → Except String (Option NVal)
  | [], cur => .ok cur
  | part :: rest, cur =>
    match cur with
    | none =>
      .error ("Cannot navigate to '" ++ part ++ "' - parent is undefined")
    | some (.js .null) =>
      .error ("Cannot navigate to '" ++ part ++ "' - parent is null")
    | some c =>
      match stepSegment part c with
      | .error e => .error e
      | .ok c2 => navParts rest c2

/-- Path resolution on an in-memory root: split on dots and walk, or
keep the root when the path is empty (falsy). -/
def navigateCore (navigationPath : String) (root : JValue) :
    Except String (Option NVal) :=
  if navigationPath = "" then .ok (some (.js root))
  else navParts ((splitChar '.' navigationPath.data).map String.mk)
    (some (.js root))

/-- `navigateResponse(responseId, navigationPath)`: load, walk, then the
Size Gate — a still-large navigated value is handed to `handleResponse`
for a fresh offload.  `JSON.stringify` of a final `undefined` or of an
inherited built-in method is `undefined`, so reading `.length` on it
throws the modelled `TypeError`; a prototype object serializes as the
tiny `"\x7b\x7d"`/`"[]"` and is returned (as its JSON image). -/
def navigateResponse (now : Int) (freshId : String) (st : HState)
    (responseId : String) (navigationPath : String) :
    Except String (JValue × HState) :=
  match loadResponse st responseId with
  | .error e => .error e
  | .ok root =>
    match navigateCore navigationPath root with
    | .error e => .error e
    | .ok none => .error "Cannot read properties of undefined (reading 'length')"
    | .ok (some nv) =>
      match stringifyN nv with
      | none => .error "Cannot read properties of undefined (reading 'length')"
      | some res =>
        if jlenStr res > MAX_RESPONSE_SIZE then
          handleResponse now freshId (jimage nv) st
        else .ok (jimage nv, st)

/-- The query options of `queryResponse`, with `filter` an
insertion-ordered record of dotted keys. -/
structure QuerySpec where
  path : Option String := none
  filter : Option (List (String × JValue)) := none
  limit : Option Int := none
  offset : Option Int := none

/-- The guarded dotted-key walk inside the filter predicate: step only
while the current value is truthy, object-typed and has the key — with
the prototype chain, so an inherited method name like `toString` keeps
walking; `none` when any guard fails (the source returns `false`
there). -/
def dotWalk : NVal → List String → Option NVal
  | cur, [] => some cur
  | cur, k :: ks =>
    if jsTruthyN cur && jsTypeofN cur == "object" && inNV k cur then
      match getN cur k with
      | some nxt => dotWalk nxt ks
      | none => none
    else none

/-- Strict equality `===` between a value resolved from parsed data and
a caller-supplied filter value.  Primitives compare by value; two
object-typed values are distinct references here (one side was freshly
parsed from disk, the other came in the request), so they compare
false, as in the host. -/
def jsStrictEq : JValue → JValue → Bool
  | .null, .null => true
  | .bool a, .bool b => a == b
  | .num a, .num b => a == b
  | .str a, .str b => a == b
  | _, _ => false

/-- `value` is a non-null object carrying at least one range operator
key. -/
def isRangeObj (value : JValue) : Bool :=
  (jsTypeof value == "object") && !(value matches .null) &&
    (jsInB "$gte" value || jsInB "$lte" value || jsInB "$gt" value
      || jsInB "$lt" value)

/-- `a < b` on possibly-NaN timestamps: false unless both are numbers,
exactly as IEEE comparison with NaN is. -/
def ltO : Option Int → Option Int → Bool
  | some a, some b => decide (a < b)
  | _, _ => false

/-- `a ≤ b` on possibly-NaN timestamps. -/
def leO : Option Int → Option Int → Bool
  | some a, some b => decide (a ≤ b)
  | _, _ => false

/-- `new Date(x).getTime()` on a navigation value: a function or a
prototype object coerces to an Invalid Date, so its time is NaN
(`none`). -/
def dpN (dp : JValue → Option Int) : NVal → Option Int
  | .js v => dp v
  | _ => none

/-- Strict equality `===` between a resolved navigation value and a
caller-supplied filter value: an inherited method or prototype object
is never identical to a value that arrived in the request. -/
def strictEqN : NVal → JValue → Bool
  | .js a, b => jsStrictEq a b
  | _, _ => false

/-- The `$gte/$lte/$gt/$lt` range comparison on the already-coerced
time `cv` of the resolved value.  `dp` is the host's
`new Date(x).getTime()` coercion (`none` is NaN), kept abstract because
the repository does not define it; every bound whose comparison is
false-by-NaN passes, as in the source — in particular a NaN `cv`
passes every bound. -/
def rangePass (dp : JValue → Option Int) (value : JValue)
    (cv : Option Int) : Bool :=
  if jsInB "$gte" value && ltO cv (dp (jsGetD value "$gte")) then false
  else if jsInB "$lte" value && ltO (dp (jsGetD value "$lte")) cv then false
  else if jsInB "$gt" value && leO cv (dp (jsGetD value "$gt")) then false
  else if jsInB "$lt" value && leO (dp (jsGetD value "$lt")) cv then false
  else true

/-- One filter entry applied to one element: resolve the dotted key
through the prototype chain, then range-compare or strict-compare. -/
def matchesEntry (dp : JValue → Option Int) (item : JValue)
    (kv : String × JValue) : Bool :=
  match dotWalk (.js item) ((splitChar '.' kv.1.data).map String.mk) with
  | none => false
  | some cur =>
    if isRangeObj kv.2 then rangePass dp kv.2 (dpN dp cur)
    else strictEqN cur kv.2

/-- The element predicate of the filter: drop falsy and non-object
items, then require every filter entry to pass. -/
def matchesItem (dp : JValue → Option Int)
    (filter : List (String × JValue)) (item : JValue) : Bool :=
  jsTruthy item && jsTypeof item == "object" &&
    filter.all (matchesEntry dp item)

/-- JavaScript `Array.prototype.slice(start, end)`, including the
negative-index wrapping. -/
def jsSlice {α : Type} (es : List α) (start endI : Int) : List α :=
  let len : Int := es.length
  let s := if start < 0 then max (len + start) 0 else min start len
  let e := if endI < 0 then max (len + endI) 0 else min endI len
  (es.drop s.toNat).take (e - s).toNat

/-- `x || d` on an optional numeric option: the default replaces an
absent or zero (falsy) value. -/
def jsOrI (o : Option Int) (d : Int) : Int :=
  match o with
  | some v => if v == 0 then d else v
  | none => d

/-- The paginated result object `queryResponse` returns for an array,
field for field. -/
def mkQueryResult (results : List JValue) (off lim : Int) : JValue :=
  let page := jsSlice results off (off + lim)
  .obj
    [.mk "results" (.arr page),
     .mk "total" (.num results.length),
     .mk "offset" (.num off),
     .mk "limit" (.num lim),
     .mk "hasMore" (.bool (decide (off + lim < (results.length : Int)))),
     .mk "message" (.str ("Showing " ++ natStr page.length ++ " of "
        ++ natStr results.length ++ " results"))]

/-- `${query.path || 'root'}` in the no-data error message. -/
def pathDisp (p : Option String) : String :=
  match p with
  | some s => if s = "" then "root" else s
  | none => "root"

/-- The filtering step of `queryResponse`: apply the filter when it is
present and has at least one key. -/
def appliedFilter (dp : JValue → Option Int) (q : QuerySpec)
    (es : List JValue) : List JValue :=
  match q.filter with
  | some f => if f.length > 0 then es.filter (matchesItem dp f) else es
  | none => es

/-- `queryResponse(responseId, query)`: navigate, reject falsy data,
then filter/paginate an array or return a non-array as-is; every error
is re-raised wrapped in one query-failure message. -/
def queryResponse (dp : JValue → Option Int) (now : Int) (freshId : String)
    (st : HState) (responseId : String) (q : QuerySpec) :
    Except String (JValue × HState) :=
  let res : Except String (JValue × HState) :=
    match navigateResponse now freshId st responseId (q.path.getD "") with
    | .error e => .error e
    | .ok (data, st1) =>
      if !jsTruthy data then
        .error ("No data found at path: " ++ pathDisp q.path)
      else
        match data with
        | .arr es =>
          .ok (mkQueryResult (appliedFilter dp q es)
            (jsOrI q.offset 0) (jsOrI q.limit 20), st1)
        | d =>
          .ok (.obj
            [.mk "data" d,
             .mk "type" (.str (jsTypeof d)),
             .mk "message" (.str "Data is not an array, returning as-is")], st1)
  match res with
  | .ok r => .ok r
  | .error e =>
    .error ("Failed to query response " ++ responseId ++ ": " ++ e)

/-- Export options of `exportResponse`. -/
structure ExportOptions where
  path : Option String := none
  format : Option String := none

/-- One CSV cell: `JSON.stringify(item[h] || '')` — a missing or falsy
cell value serializes as the empty JSON string, but a truthy inherited
method (e.g. a `toString` column hitting a row without its own) gives
`JSON.stringify` of a function, which is `undefined` (`none`).  Reading
a property of a `null` item throws. -/
def csvCell (item : JValue) (h : String) : Except String (Option String) :=
  match jsGetE item h with
  | .error e => .error e
  | .ok pv =>
    let w : NVal :=
      match pv with
      | some w => if jsTruthyN w then w else .js (.str "")
      | none => .js (.str "")
    .ok (stringifyN w)

/-- All cells of one CSV row, joined by `Array.prototype.join`, which
renders an `undefined` cell as the empty string. -/
def csvRow (headers : List String) (item : JValue) : Except String String :=
  match headers.mapM (csvCell item) with
  | .error e => .error e
  | .ok cells =>
    .ok (String.intercalate "," (cells.map (fun c => c.getD "")))

/-- The CSV header row source: `Object.keys(data[0] || {})` — the keys
of the first element when it is truthy, none otherwise. -/
def csvHeaders (es : List JValue) : List String :=
  match es.head? with
  | some h0 => if jsTruthy h0 then objKeys h0 else []
  | none => []

mutual

/-- Pretty `JSON.stringify(v, null, 2)` used by the JSON export branch. -/
def prettyChars (ind : Nat) : JValue → List Char
  | .arr [] => ['[', ']']
  | .arr (e :: es) =>
    '[' :: '\n' :: List.replicate (ind + 2) ' '
      ++ prettyChars (ind + 2) e ++ prettyArrTail (ind + 2) es
      ++ '\n' :: List.replicate ind ' ' ++ [']']
  | .obj [] => [lbrace, rbrace]
  | .obj (f :: fs) =>
    lbrace :: '\n' :: List.replicate (ind + 2) ' '
      ++ prettyField (ind + 2) f ++ prettyObjTail (ind + 2) fs
      ++ '\n' :: List.replicate ind ' ' ++ [rbrace]
  | v => stringifyChars v

/-- Remaining elements of a pretty-printed array. -/
def prettyArrTail (ind : Nat) : List JValue → List Char
  | [] => []
  | e :: es =>
    ',' :: '\n' :: List.replicate ind ' '
      ++ prettyChars ind e ++ prettyArrTail ind es

/-- One pretty-printed field, `"key": value`. -/
def prettyField (ind : Nat) : JField → List Char
  | .mk k v => '"' :: escapeList k.data ++ '"' :: ':' :: ' ' :: prettyChars ind v

/-- Remaining fields of a pretty-printed object. -/
def prettyObjTail (ind : Nat) : List JField → List Char
  | [] => []
  | f :: fs =>
    ',' :: '\n' :: List.replicate ind ' '
      ++ prettyField ind f ++ prettyObjTail ind fs

end

/-- `exportResponse(responseId, outputPath, options)`: navigate, then
write either CSV (for an array under `format: 'csv'`) or pretty JSON.
Returns the confirmation message, the text written to `outputPath`, and
the post state (navigation may itself offload). -/
def exportResponse (now : Int) (freshId : String) (st : HState)
    (responseId : String) (outputPath : String)
    (options : Option ExportOptions) :
    Except String (String × String × HState) :=
  match navigateResponse now freshId st responseId
      ((options.bind ExportOptions.path).getD "") with
  | .error e => .error e
  | .ok (data, st1) =>
    match data with
    | .arr es =>
      if options.bind ExportOptions.format == some "csv" then
        let headers := csvHeaders es
        match es.mapM (csvRow headers) with
        | .error e => .error e
        | .ok rows =>
          .ok ("Exported " ++ natStr es.length ++ " items to " ++ outputPath,
            String.intercalate "\n" (String.intercalate "," headers :: rows),
            st1)
      else
        .ok ("Exported to " ++ outputPath,
          String.mk (prettyChars 0 data), st1)
    | d =>
      .ok ("Exported to " ++ outputPath, String.mk (prettyChars 0 d), st1)

/-- The digit-accumulating fold used by both number parsers. -/
def dfold (a : Nat) (cs : List Char) : Nat :=
  cs.foldl (fun x c => 10 * x + digVal c) a

/-- Head of the remaining input is not a digit (so a greedy digit run
stops exactly at the printed number's end). -/
def restOkB : List Char → Bool
  | [] => true
  | c :: _ => !isDig c

mutual

/-- Node count of a JSON value, for nested induction. -/
def jsize : JValue → Nat
  | .arr es => 1 + jsizeL es
  | .obj fs => 1 + jsizeF fs
  | _ => 1

/-- Node count of an element list. -/
def jsizeL : List JValue → Nat
  | [] => 0
  | e :: es => jsize e + 1 + jsizeL es

/-- Node count of a field list. -/
def jsizeF : List JField → Nat
  | [] => 0
  | .mk _ v :: fs => jsize v + 1 + jsizeF fs

end

mutual

/-- Fuel needed by `parseVal` to read back a printed value. -/
def fneed : JValue → Nat
  | .arr [] => 1
  | .arr (e :: es) => 1 + max (fneed e) (fneedA es)
  | .obj [] => 1
  | .obj (.mk _ v :: fs) => 1 + max (fneed v) (fneedO fs)
  | _ => 1

/-- Fuel needed by `parseArrTail` for a printed array tail. -/
def fneedA : List JValue → Nat
  | [] => 1
  | e :: es => 1 + max (fneed e) (fneedA es)

/-- Fuel needed by `parseObjTail` for a printed object tail. -/
def fneedO : List JField → Nat
  | [] => 1
  | .mk _ v :: fs => 1 + max (fneed v) (fneedO fs)

end

/-! Concrete states used by witnesses and counterexamples.  Each file
text is exactly the serialization `handleResponse` would have written
for the stored value. -/

/-- A state holding one response `r1` whose full value is the object
with a `0` at key `a`. -/
def stA0 : HState :=
  ⟨[("r1", ⟨"r1", 0, 123, .obj []⟩)],
   [("r1", stringifyStr (.obj [.mk "a" (.num 0)]))]⟩

/-- Three status-tagged items, as in the spec's query example. -/
def itemsList : List JValue :=
  [.obj [.mk "status" (.str "open")],
   .obj [.mk "status" (.str "closed")],
   .obj [.mk "status" (.str "open")]]

/-- A state holding one response `r2` whose full value has an `items`
array of three status-tagged objects (the spec's own query example). -/
def stItems : HState :=
  ⟨[("r2", ⟨"r2", 0, 500, .obj []⟩)],
   [("r2", stringifyStr (.obj [.mk "items" (.arr itemsList)]))]⟩

/-- A state holding one response `r3` whose full value is an array of
two rows, the first carrying a falsy cell value. -/
def stRows : HState :=
  ⟨[("r3", ⟨"r3", 0, 77, .obj []⟩)],
   [("r3", stringifyStr (.arr [.obj [.mk "a" (.num 0)], .obj [.mk "a" (.num 1)]]))]⟩

/-- A state holding one response `r4` with nested objects and an array,
for navigation witnesses. -/
def stNav : HState :=
  ⟨[("r4", ⟨"r4", 0, 300, .obj []⟩)],
   [("r4", stringifyStr (.obj
     [.mk "a" (.obj [.mk "b" (.num 42)]),
      .mk "items" (.arr [.num 10, .num 20, .num 30])]))]⟩

/-- The full value stored under `r4` in `stNav`. -/
def navRoot : JValue :=
  .obj [.mk "a" (.obj [.mk "b" (.num 42)]),
        .mk "items" (.arr [.num 10, .num 20, .num 30])]

/-- 100001 repetitions of `a`: a pad whose quoted serialization crosses
the threshold. -/
def bigPad : String := String.mk (List.replicate 100001 'a')

/-- An oversized array whose first item is `null`: its summary throws. -/
def bigVal1 : JValue := .arr [.null, .str bigPad]

/-- An oversized array whose first item is a string: its summary is fine. -/
def bigVal2 : JValue := .arr [.str bigPad]

/-- `createSummary bigVal2`, spelled out. -/
def bigSum : JValue :=
  .obj [.mk "totalItems" (.num 1),
        .mk "firstItems" (.arr [.str bigPad]),
        .mk "structure" (.str "array")]

/-- 100001 repetitions of U+00E9, one UTF-16 unit but two UTF-8 bytes
each. -/
def ePad : String := String.mk (List.replicate 100001 (Char.ofNat 233))

/-- An oversized non-ASCII string value. -/
def eVal : JValue := .str ePad

/-- A state holding one stale response, over an hour old at time 0. -/
def stOld : HState :=
  ⟨[("old", ⟨"old", -4000000, 5, .obj []⟩)], [("old", "xx")]⟩

/-- A state holding the oversized `bigVal2` under `r5`. -/
def stBig : HState :=
  ⟨[("r5", ⟨"r5", 0, 100005, .obj []⟩)], [("r5", stringifyStr bigVal2)]⟩


/-! ### Generic facts about characters, digits and decimal printing -/

theorem char_eq_iff_toNat {c d : Char} : c = d ↔ c.toNat = d.toNat := by
  constructor
  · intro h; rw [h]
  · intro h
    have h1 := Char.ofNat_toNat c
    have h2 := Char.ofNat_toNat d
    rw [← h1, ← h2, h]

theorem digVal_hexDig {m : Nat} (h : m < 10) : digVal (hexDig m) = m := by
  interval_cases m <;> decide

theorem isDig_hexDig {m : Nat} (h : m < 10) : isDig (hexDig m) = true := by
  interval_cases m <;> decide

theorem hexVal_hexDig {m : Nat} (h : m < 16) : hexVal (hexDig m) = some m := by
  interval_cases m <;> decide

theorem isDig_toNat {c : Char} (h : isDig c = true) :
    48 ≤ c.toNat ∧ c.toNat ≤ 57 := by
  unfold isDig at h
  constructor <;> [skip; skip] <;>
    simp only [Bool.and_eq_true, decide_eq_true_eq] at h <;> omega

theorem natToRevDigitsF_eq (n : Nat) :
    ∀ fuel, n < fuel → natToRevDigitsF fuel n = natToRevDigits n := by
  induction n using Nat.strong_induction_on with
  | _ n ih =>
    intro fuel hf
    match fuel, hf with
    | f + 1, hf =>
      by_cases h : n < 10
      · rw [natToRevDigitsF, if_pos h]
        rw [natToRevDigits, natToRevDigitsF, if_pos h]
      · have hlt : n / 10 < n := Nat.div_lt_self (by omega) (by omega)
        rw [natToRevDigitsF, if_neg h]
        rw [natToRevDigits, natToRevDigitsF, if_neg h]
        rw [ih (n / 10) hlt f (by omega), ih (n / 10) hlt n hlt]

theorem natToRevDigits_small {n : Nat} (h : n < 10) :
    natToRevDigits n = [hexDig n] := by
  rw [natToRevDigits, natToRevDigitsF, if_pos h]

theorem natToRevDigits_step {n : Nat} (h : ¬ n < 10) :
    natToRevDigits n = hexDig (n % 10) :: natToRevDigits (n / 10) := by
  rw [natToRevDigits, natToRevDigitsF, if_neg h]
  rw [natToRevDigitsF_eq (n / 10) n (Nat.div_lt_self (by omega) (by omega))]

theorem natToRevDigits_ne_nil (n : Nat) : natToRevDigits n ≠ [] := by
  by_cases h : n < 10
  · rw [natToRevDigits_small h]
    simp
  · rw [natToRevDigits_step h]
    simp

theorem natRepr_ne_nil (n : Nat) : natRepr n ≠ [] := by
  unfold natRepr
  intro h
  exact natToRevDigits_ne_nil n (List.reverse_eq_nil_iff.mp h)

theorem natToRevDigits_all_dig (n : Nat) :
    ∀ c ∈ natToRevDigits n, isDig c = true := by
  induction n using Nat.strong_induction_on with
  | _ n ih =>
    by_cases h : n < 10
    · rw [natToRevDigits_small h]
      intro c hc
      simp only [List.mem_singleton] at hc
      exact hc ▸ isDig_hexDig h
    · rw [natToRevDigits_step h]
      intro c hc
      simp only [List.mem_cons] at hc
      rcases hc with hc | hc
      · exact hc ▸ isDig_hexDig (Nat.mod_lt n (by omega))
      · exact ih (n / 10) (Nat.div_lt_self (by omega) (by omega)) c hc

theorem natRepr_all_dig (n : Nat) : ∀ c ∈ natRepr n, isDig c = true := by
  intro c hc
  exact natToRevDigits_all_dig n c (List.mem_reverse.mp hc)

theorem natRepr_small {n : Nat} (h : n < 10) : natRepr n = [hexDig n] := by
  unfold natRepr
  rw [natToRevDigits_small h]
  rfl

theorem natRepr_step {n : Nat} (h : ¬ n < 10) :
    natRepr n = natRepr (n / 10) ++ [hexDig (n % 10)] := by
  unfold natRepr
  rw [natToRevDigits_step h]
  simp

theorem dfold_append (a : Nat) (xs ys : List Char) :
    dfold a (xs ++ ys) = dfold (dfold a xs) ys := by
  unfold dfold
  exact List.foldl_append _ _ xs ys

theorem dfold_natRepr (n : Nat) :
    ∀ a, dfold a (natRepr n) = a * 10 ^ (natRepr n).length + n := by
  induction n using Nat.strong_induction_on with
  | _ n ih =>
    intro a
    by_cases h : n < 10
    · rw [natRepr_small h]
      simp [dfold, digVal_hexDig h]
      ring
    · rw [natRepr_step h, dfold_append, ih (n / 10) (Nat.div_lt_self (by omega) (by omega))]
      simp [dfold, digVal_hexDig (Nat.mod_lt n (by omega) : n % 10 < 10)]
      have hmod := Nat.div_add_mod n 10
      ring_nf
      omega

theorem takeWhile_all_append {p : Char → Bool} {xs ys : List Char}
    (hx : ∀ c ∈ xs, p c = true)
    (hy : ∀ c t, ys = c :: t → p c = false) :
    (xs ++ ys).takeWhile p = xs ∧ (xs ++ ys).dropWhile p = ys := by
  induction xs with
  | nil =>
    simp only [List.nil_append]
    cases ys with
    | nil => simp
    | cons c t =>
      have := hy c t rfl
      simp [List.takeWhile, List.dropWhile, this]
  | cons c t ihx =>
    have hc : p c = true := hx c (List.mem_cons_self c t)
    have ih := ihx (fun d hd => hx d (List.mem_cons_of_mem c hd))
    simp [List.takeWhile, List.dropWhile, hc, ih.1, ih.2]

theorem parseDigits_natRepr (n : Nat) (rest : List Char)
    (hr : restOkB rest = true) :
    parseDigits (natRepr n ++ rest) = some (n, rest) := by
  have hy : ∀ c t, rest = c :: t → isDig c = false := by
    intro c t h
    subst h
    simpa [restOkB] using hr
  have h := takeWhile_all_append (p := isDig) (natRepr_all_dig n) hy
  unfold parseDigits
  rw [h.1, h.2]
  have hne : (natRepr n).isEmpty = false := by
    cases hh : natRepr n with
    | nil => exact absurd hh (natRepr_ne_nil n)
    | cons c t => rfl
  simp only [hne, Bool.false_eq_true, if_false]
  have := dfold_natRepr n 0
  unfold dfold at this
  simp only [Nat.zero_mul, Nat.zero_add] at this
  rw [this]

theorem intRepr_cons (i : Int) :
    ∃ c t, intRepr i = c :: t ∧ (isDig c = true ∨ c = '-') := by
  unfold intRepr
  split
  · exact ⟨'-', natRepr i.natAbs, rfl, Or.inr rfl⟩
  · cases hh : natRepr i.toNat with
    | nil => exact absurd hh (natRepr_ne_nil _)
    | cons c t =>
      exact ⟨c, t, rfl, Or.inl (natRepr_all_dig _ c (hh ▸ List.mem_cons_self c t))⟩

theorem dig_ne_minus {c : Char} (h : isDig c = true) : c ≠ '-' := by
  intro he
  have h2 := isDig_toNat h
  rw [char_eq_iff_toNat] at he
  rw [he] at h2
  exact absurd h2 (by decide)

theorem parseNum_intRepr (i : Int) (rest : List Char)
    (hr : restOkB rest = true) :
    parseNum (intRepr i ++ rest) = some (i, rest) := by
  unfold intRepr
  split
  · next hneg =>
    show parseNum ('-' :: (natRepr i.natAbs ++ rest)) = _
    unfold parseNum
    simp only [List.head?_cons, List.tail_cons, if_true, if_pos,
      Option.some.injEq, reduceIte]
    rw [parseDigits_natRepr _ _ hr]
    simp only [Option.map_some']
    have he : -((i.natAbs : Nat) : Int) = i := by omega
    rw [he]
  · next hpos =>
    cases hct : natRepr i.toNat with
    | nil => exact absurd hct (natRepr_ne_nil _)
    | cons c t =>
      have hcd : isDig c = true :=
        natRepr_all_dig _ c (hct ▸ List.mem_cons_self c t)
      show parseNum ((c :: t) ++ rest) = _
      unfold parseNum
      rw [if_neg (by
        simp only [List.cons_append, List.head?_cons, Option.some.injEq]
        exact dig_ne_minus hcd)]
      have he2 : (c :: t) ++ rest = natRepr i.toNat ++ rest := by rw [hct]
      rw [he2, parseDigits_natRepr _ _ hr]
      simp only [Option.map_some']
      have he3 : ((i.toNat : Nat) : Int) = i := by omega
      rw [he3]

/-! ### String-body escape/unescape roundtrip -/

theorem psb_escape (c : Char) (cs : List Char) :
    parseStringBody (escapeChar c ++ cs) = mapCons c (parseStringBody cs) := by
  by_cases h8 : c.toNat < 32
  · obtain ⟨t, ht, hlt⟩ : ∃ t, c.toNat = t ∧ t < 32 := ⟨c.toNat, rfl, h8⟩
    have hcc : c = Char.ofNat t := by
      rw [char_eq_iff_toNat, ht]
      interval_cases t <;> rfl
    subst hcc
    interval_cases t <;> (rw [parseStringBody.eq_def]; rfl)
  · by_cases h1 : c = '"'
    · subst h1
      rw [parseStringBody.eq_def]
      rfl
    by_cases h2 : c = '\\'
    · subst h2
      rw [parseStringBody.eq_def]
      rfl
    have he : escapeChar c = [c] := by
      unfold escapeChar
      rw [if_neg h1, if_neg h2, if_neg, if_neg, if_neg, if_neg, if_neg,
        if_neg h8]
      all_goals
        intro hx
        apply h8
        rw [hx]
        decide
    rw [he]
    show parseStringBody (c :: cs) = _
    rw [parseStringBody.eq_def]
    simp only [h1, h2, reduceIte, if_false]

theorem psb_escapeList (l : List Char) (cs : List Char) :
    parseStringBody (escapeList l ++ '"' :: cs) = some (l, cs) := by
  induction l with
  | nil =>
    show parseStringBody ('"' :: cs) = _
    rw [parseStringBody.eq_def]
    rfl
  | cons c t ih =>
    show parseStringBody ((escapeChar c ++ escapeList t) ++ '"' :: cs) = _
    rw [List.append_assoc, psb_escape, ih]
    rfl

/-! ### Structural sizes and a nested induction principle for `JValue` -/

theorem jsize_pos (v : JValue) : 1 ≤ jsize v := by
  cases v <;> simp [jsize] <;> omega

theorem jsize_le_of_memL {e : JValue} {es : List JValue} (h : e ∈ es) :
    jsize e ≤ jsizeL es := by
  induction es with
  | nil => cases h
  | cons x xs ih =>
    rcases List.mem_cons.mp h with h | h
    · subst h; simp [jsizeL]; omega
    · have := ih h; simp [jsizeL]; omega

theorem jsize_le_of_memF {f : JField} {fs : List JField}
    (h : f ∈ fs) : jsize f.val ≤ jsizeF fs := by
  induction fs with
  | nil => cases h
  | cons x xs ih =>
    obtain ⟨k, v⟩ := x
    rcases List.mem_cons.mp h with h | h
    · subst h
      simp [jsizeF, JField.val]
      omega
    · have := ih h
      simp [jsizeF]
      omega

theorem JValue.indNested {P : JValue → Prop}
    (hnull : P .null) (hbool : ∀ b, P (.bool b)) (hnum : ∀ i, P (.num i))
    (hstr : ∀ s, P (.str s))
    (harr : ∀ es, (∀ e ∈ es, P e) → P (.arr es))
    (hobj : ∀ fs, (∀ f ∈ fs, P f.val) → P (.obj fs)) : ∀ v, P v := by
  have key : ∀ n v, jsize v ≤ n → P v := by
    intro n
    induction n with
    | zero =>
      intro v h
      have := jsize_pos v
      omega
    | succ n ih =>
      intro v h
      cases v with
      | null => exact hnull
      | bool b => exact hbool b
      | num i => exact hnum i
      | str s => exact hstr s
      | arr es =>
        refine harr es (fun e he => ih e ?_)
        have h1 := jsize_le_of_memL he
        simp only [jsize] at h
        omega
      | obj fs =>
        refine hobj fs (fun f hf => ih f.val ?_)
        have h1 := jsize_le_of_memF hf
        simp only [jsize] at h
        omega
  exact fun v => key (jsize v) v (Nat.le_refl _)

theorem fneed_pos (v : JValue) : 1 ≤ fneed v := by
  cases v with
  | arr es => cases es <;> simp [fneed]
  | obj fs =>
    cases fs with
    | nil => simp [fneed]
    | cons f t =>
      obtain ⟨k, w⟩ := f
      simp [fneed]
  | _ => simp [fneed]

/-- The first character of a printed value is never one of the
structural delimiters that close or separate an enclosing construct. -/
theorem strChars_cons (v : JValue) :
    ∃ c t, stringifyChars v = c :: t ∧ c ≠ ']' ∧ c ≠ rbrace := by
  cases v with
  | null => exact ⟨'n', _, rfl, by decide, by decide⟩
  | bool b =>
    cases b with
    | false => exact ⟨'f', _, rfl, by decide, by decide⟩
    | true => exact ⟨'t', _, rfl, by decide, by decide⟩
  | num i =>
    obtain ⟨c, t, hct, hd⟩ := intRepr_cons i
    refine ⟨c, t, hct, ?_, ?_⟩
    · rcases hd with hd | hd
      · intro he
        have h2 := isDig_toNat hd
        rw [char_eq_iff_toNat] at he
        rw [he] at h2
        exact absurd h2 (by decide)
      · subst hd; decide
    · rcases hd with hd | hd
      · intro he
        have h2 := isDig_toNat hd
        rw [char_eq_iff_toNat] at he
        rw [he] at h2
        exact absurd h2 (by decide)
      · subst hd; decide
  | str s => exact ⟨'"', _, rfl, by decide, by decide⟩
  | arr es => cases es with
    | nil => exact ⟨'[', _, rfl, by decide, by decide⟩
    | cons e es => exact ⟨'[', _, rfl, by decide, by decide⟩
  | obj fs => cases fs with
    | nil => exact ⟨lbrace, _, rfl, by decide, by decide⟩
    | cons f fs => exact ⟨lbrace, _, rfl, by decide, by decide⟩

theorem restOk_arrTail (es : List JValue) (rest : List Char) :
    restOkB (stringifyArrTail es ++ rest) = true := by
  cases es <;> rfl

theorem restOk_objTail (fs : List JField) (rest : List Char) :
    restOkB (stringifyObjTail fs ++ rest) = true := by
  cases fs <;> rfl

/-! ### One-step reduction lemmas for the fuel parser -/

set_option maxHeartbeats 1000000 in
theorem parseVal_succ_digit (f : Nat) (c : Char) (cs : List Char)
    (hcond : (isDig c || decide (c = '-')) = true) :
    parseVal (f + 1) (c :: cs)
      = (parseNum (c :: cs)).map (fun p => (JValue.num p.1, p.2)) := by
  rw [parseVal.eq_def]
  conv_lhs => whnf
  rw [show (instDecidableEqBool (isDig c || decide (c = '-')) true)
      = isTrue hcond from Subsingleton.elim _ _]

set_option maxHeartbeats 1000000 in
theorem parseVal_succ_quote (f : Nat) (cs : List Char) :
    parseVal (f + 1) ('"' :: cs)
      = (parseStringBody cs).map (fun p => (JValue.str (String.mk p.1), p.2)) := by
  rw [parseVal.eq_def]
  conv_lhs => whnf
  cases parseStringBody cs <;> rfl

set_option maxHeartbeats 1000000 in
theorem parseVal_succ_bracket (f : Nat) (c2 : Char) (cs2 : List Char)
    (hne : c2 ≠ ']') :
    parseVal (f + 1) ('[' :: c2 :: cs2)
      = match parseVal f (c2 :: cs2) with
        | none => none
        | some (e, r) =>
          match parseArrTail f r with
          | none => none
          | some (es, r2) => some (.arr (e :: es), r2) := by
  rw [parseVal.eq_def]
  conv_lhs => whnf
  rw [show (instDecidableEqChar c2 ']') = isFalse hne from
    Subsingleton.elim _ _]

set_option maxHeartbeats 1000000 in
theorem parseVal_succ_lbrace (f : Nat) (c2 : Char) (cs2 : List Char)
    (hne : c2 ≠ rbrace) :
    parseVal (f + 1) (lbrace :: c2 :: cs2)
      = match parseKey (c2 :: cs2) with
        | none => none
        | some (k, r1) =>
          match parseVal f r1 with
          | none => none
          | some (v, r2) =>
            match parseObjTail f r2 with
            | none => none
            | some (fs, r3) => some (.obj (.mk k v :: fs), r3) := by
  rw [parseVal.eq_def]
  conv_lhs => whnf
  rw [show (instDecidableEqChar c2 rbrace) = isFalse hne from
    Subsingleton.elim _ _]

theorem parseArrTail_succ_close (f : Nat) (cs : List Char) :
    parseArrTail (f + 1) (']' :: cs) = some ([], cs) := by
  rw [parseArrTail.eq_def]
  conv_lhs => whnf

theorem parseArrTail_succ_comma (f : Nat) (cs : List Char) :
    parseArrTail (f + 1) (',' :: cs)
      = match parseVal f cs with
        | none => none
        | some (e, r) =>
          match parseArrTail f r with
          | none => none
          | some (es, r2) => some (e :: es, r2) := by
  rw [parseArrTail.eq_def]
  conv_lhs => whnf

theorem parseObjTail_succ_close (f : Nat) (cs : List Char) :
    parseObjTail (f + 1) (rbrace :: cs) = some ([], cs) := by
  rw [parseObjTail.eq_def]
  conv_lhs => whnf

theorem parseObjTail_succ_comma (f : Nat) (cs : List Char) :
    parseObjTail (f + 1) (',' :: cs)
      = match parseKey cs with
        | none => none
        | some (k, r1) =>
          match parseVal f r1 with
          | none => none
          | some (v, r2) =>
            match parseObjTail f r2 with
            | none => none
            | some (fs, r3) => some (.mk k v :: fs, r3) := by
  rw [parseObjTail.eq_def]
  conv_lhs => whnf

theorem parseKey_field (k : String) (R : List Char) :
    parseKey ('"' :: (escapeList k.data ++ '"' :: ':' :: R)) = some (k, R) := by
  unfold parseKey
  simp only [reduceIte]
  rw [psb_escapeList]
  rfl

theorem parseVal_succ_null (f : Nat) (rest : List Char) :
    parseVal (f + 1) ('n' :: 'u' :: 'l' :: 'l' :: rest) = some (.null, rest) := by
  rw [parseVal.eq_def]
  conv_lhs => whnf

theorem parseVal_succ_true (f : Nat) (rest : List Char) :
    parseVal (f + 1) ('t' :: 'r' :: 'u' :: 'e' :: rest)
      = some (.bool true, rest) := by
  rw [parseVal.eq_def]
  conv_lhs => whnf

theorem parseVal_succ_false (f : Nat) (rest : List Char) :
    parseVal (f + 1) ('f' :: 'a' :: 'l' :: 's' :: 'e' :: rest)
      = some (.bool false, rest) := by
  rw [parseVal.eq_def]
  conv_lhs => whnf

theorem parseVal_succ_arrNil (f : Nat) (rest : List Char) :
    parseVal (f + 1) ('[' :: ']' :: rest) = some (.arr [], rest) := by
  rw [parseVal.eq_def]
  conv_lhs => whnf

theorem parseVal_succ_objNil (f : Nat) (rest : List Char) :
    parseVal (f + 1) (lbrace :: rbrace :: rest) = some (.obj [], rest) := by
  rw [parseVal.eq_def]
  conv_lhs => whnf

/-! ### The printer/parser roundtrip -/

set_option maxHeartbeats 2000000 in
theorem parse_fuel : ∀ fuel : Nat,
    (∀ v rest, fneed v ≤ fuel → restOkB rest = true →
      parseVal fuel (stringifyChars v ++ rest) = some (v, rest))
    ∧ (∀ es rest, fneedA es ≤ fuel →
      parseArrTail fuel (stringifyArrTail es ++ rest) = some (es, rest))
    ∧ (∀ fs rest, fneedO fs ≤ fuel →
      parseObjTail fuel (stringifyObjTail fs ++ rest) = some (fs, rest)) := by
  intro fuel
  induction fuel with
  | zero =>
    refine ⟨fun v rest h _ => absurd h (by have := fneed_pos v; omega), ?_, ?_⟩
    · intro es rest h
      exfalso
      cases es <;> simp [fneedA] at h
    · intro fs rest h
      exfalso
      cases fs with
      | nil => simp [fneedO] at h
      | cons f t =>
        obtain ⟨k, v⟩ := f
        simp [fneedO] at h
  | succ f ih =>
    obtain ⟨ihV, ihA, ihO⟩ := ih
    refine ⟨?_, ?_, ?_⟩
    · intro v rest hf hr
      cases v with
      | null => exact parseVal_succ_null f rest
      | bool b =>
        cases b with
        | true => exact parseVal_succ_true f rest
        | false => exact parseVal_succ_false f rest
      | num i =>
        obtain ⟨c, t, hct, hd⟩ := intRepr_cons i
        have hcond : (isDig c || decide (c = '-')) = true := by
          rcases hd with hd | hd
          · simp [hd]
          · simp [hd]
        have hex : stringifyChars (.num i) ++ rest = c :: (t ++ rest) := by
          simp only [stringifyChars]
          rw [hct, List.cons_append]
        rw [hex, parseVal_succ_digit f c (t ++ rest) hcond]
        have hback : c :: (t ++ rest) = intRepr i ++ rest := by
          rw [hct, List.cons_append]
        rw [hback, parseNum_intRepr i rest hr]
        rfl
      | str s =>
        have hex : stringifyChars (.str s) ++ rest
            = '"' :: (escapeList s.data ++ '"' :: rest) := by
          simp [stringifyChars, List.cons_append, List.append_assoc]
        rw [hex, parseVal_succ_quote, psb_escapeList]
        rfl
      | arr es =>
        cases es with
        | nil => exact parseVal_succ_arrNil f rest
        | cons e es2 =>
          obtain ⟨c2, t2, hc2, hne, _⟩ := strChars_cons e
          simp only [fneed] at hf
          have hfe : fneed e ≤ f := by
            have := Nat.le_max_left (fneed e) (fneedA es2)
            omega
          have hfa : fneedA es2 ≤ f := by
            have := Nat.le_max_right (fneed e) (fneedA es2)
            omega
          have hex : stringifyChars (.arr (e :: es2)) ++ rest
              = '[' :: (stringifyChars e ++ (stringifyArrTail es2 ++ rest)) := by
            simp [stringifyChars, List.cons_append, List.append_assoc]
          rw [hex, hc2, List.cons_append,
            parseVal_succ_bracket f c2 _ hne, ← List.cons_append, ← hc2,
            ihV e _ hfe (restOk_arrTail es2 rest)]
          simp only [ihA es2 rest hfa]
      | obj fs =>
        cases fs with
        | nil => exact parseVal_succ_objNil f rest
        | cons f0 fs2 =>
          obtain ⟨k, v⟩ := f0
          simp only [fneed, JField.val] at hf
          have hfv : fneed v ≤ f := by
            have := Nat.le_max_left (fneed v) (fneedO fs2)
            omega
          have hfo : fneedO fs2 ≤ f := by
            have := Nat.le_max_right (fneed v) (fneedO fs2)
            omega
          have hex : stringifyChars (.obj (.mk k v :: fs2)) ++ rest
              = lbrace :: '"' :: (escapeList k.data ++ '"' :: ':' ::
                (stringifyChars v ++ (stringifyObjTail fs2 ++ rest))) := by
            simp [stringifyChars, stringifyField, List.cons_append,
              List.append_assoc]
          rw [hex, parseVal_succ_lbrace f '"' _ (by decide),
            parseKey_field k _]
          simp only [ihV v _ hfv (restOk_objTail fs2 rest)]
          simp only [ihO fs2 rest hfo]
    · intro es rest hfa
      cases es with
      | nil => exact parseArrTail_succ_close f rest
      | cons e es2 =>
        simp only [fneedA] at hfa
        have hfe : fneed e ≤ f := by
          have := Nat.le_max_left (fneed e) (fneedA es2)
          omega
        have hft : fneedA es2 ≤ f := by
          have := Nat.le_max_right (fneed e) (fneedA es2)
          omega
        have hex : stringifyArrTail (e :: es2) ++ rest
            = ',' :: (stringifyChars e ++ (stringifyArrTail es2 ++ rest)) := by
          simp [stringifyArrTail, List.cons_append, List.append_assoc]
        rw [hex, parseArrTail_succ_comma,
          ihV e _ hfe (restOk_arrTail es2 rest)]
        simp only [ihA es2 rest hft]
    · intro fs rest hfo
      cases fs with
      | nil => exact parseObjTail_succ_close f rest
      | cons f0 fs2 =>
        obtain ⟨k, v⟩ := f0
        simp only [fneedO, JField.val] at hfo
        have hfv : fneed v ≤ f := by
          have := Nat.le_max_left (fneed v) (fneedO fs2)
          omega
        have hft : fneedO fs2 ≤ f := by
          have := Nat.le_max_right (fneed v) (fneedO fs2)
          omega
        have hex : stringifyObjTail (.mk k v :: fs2) ++ rest
            = ',' :: ('"' :: (escapeList k.data ++ '"' :: ':' ::
              (stringifyChars v ++ (stringifyObjTail fs2 ++ rest)))) := by
          simp [stringifyObjTail, stringifyField, List.cons_append,
            List.append_assoc]
        rw [hex, parseObjTail_succ_comma, parseKey_field k _]
        simp only [ihV v _ hfv (restOk_objTail fs2 rest)]
        simp only [ihO fs2 rest hft]

theorem fneedA_le_len (es : List JValue)
    (h : ∀ e ∈ es, fneed e ≤ (stringifyChars e).length) :
    fneedA es ≤ (stringifyArrTail es).length := by
  induction es with
  | nil => simp [fneedA, stringifyArrTail]
  | cons e es2 ih =>
    have h1 := h e (List.mem_cons_self e es2)
    have h2 := ih (fun x hx => h x (List.mem_cons_of_mem e hx))
    simp only [fneedA, stringifyArrTail, List.length_cons, List.length_append]
    omega

theorem fneedO_le_len (fs : List JField)
    (h : ∀ f ∈ fs, fneed f.val ≤ (stringifyChars f.val).length) :
    fneedO fs ≤ (stringifyObjTail fs).length := by
  induction fs with
  | nil => simp [fneedO, stringifyObjTail]
  | cons f0 fs2 ih =>
    obtain ⟨k, v⟩ := f0
    have h1 := h (.mk k v) (List.mem_cons_self _ fs2)
    have h2 := ih (fun x hx => h x (List.mem_cons_of_mem _ hx))
    simp only [fneedO, stringifyObjTail, stringifyField, JField.val,
      List.length_cons, List.length_append] at h1 h2 ⊢
    omega

theorem fneed_le_len : ∀ v, fneed v ≤ (stringifyChars v).length := by
  refine JValue.indNested ?_ ?_ ?_ ?_ ?_ ?_
  · simp [fneed, stringifyChars]
  · intro b
    cases b <;> simp [fneed, stringifyChars]
  · intro i
    obtain ⟨c, t, hct, _⟩ := intRepr_cons i
    simp only [fneed, stringifyChars, hct, List.length_cons]
    omega
  · intro s
    simp [fneed, stringifyChars]
  · intro es h
    cases es with
    | nil => simp [fneed, stringifyChars]
    | cons e es2 =>
      have h1 := h e (List.mem_cons_self e es2)
      have h2 := fneedA_le_len es2 (fun x hx => h x (List.mem_cons_of_mem e hx))
      simp only [fneed, stringifyChars, List.length_cons, List.length_append]
      omega
  · intro fs h
    cases fs with
    | nil => simp [fneed, stringifyChars]
    | cons f0 fs2 =>
      obtain ⟨k, v⟩ := f0
      have h1 := h (.mk k v) (List.mem_cons_self _ fs2)
      have h2 := fneedO_le_len fs2 (fun x hx => h x (List.mem_cons_of_mem _ hx))
      simp only [fneed, stringifyChars, stringifyField, JField.val,
        List.length_cons, List.length_append] at h1 h2 ⊢
      omega

/-- Writing a value with `JSON.stringify` and reading the text back with
`JSON.parse` yields the identical value. -/
theorem parse_stringify (v : JValue) : parseTop (stringifyStr v) = some v := by
  unfold parseTop stringifyStr
  have hd : (String.mk (stringifyChars v)).data = stringifyChars v := rfl
  rw [hd]
  have h := (parse_fuel ((stringifyChars v).length + 1)).1 v []
    (le_trans (fneed_le_len v) (by omega)) rfl
  rw [List.append_nil] at h
  rw [h]

/-! ### Claim C9: the Summary Builder -/

/-- C9 (counterexample): the claim says `createSummary` records, for
every array value, the item count, first three items and (when the
first item is an object) its key names.  On the array `[null]` —
`typeof null` being `"object"` — the source instead evaluates
`Object.keys(null)`, which throws a TypeError, and no summary is
produced at all. -/
theorem C9_counterexample :
    createSummary (JValue.arr [JValue.null])
        = Except.error "Cannot convert undefined or null to object"
    ∧ ∀ s, createSummary (JValue.arr [JValue.null]) ≠ Except.ok s := by
  refine ⟨rfl, fun s h => ?_⟩
  rw [show createSummary (JValue.arr [JValue.null])
      = Except.error "Cannot convert undefined or null to object" from rfl] at h
  exact Except.noConfusion h

/-- C9 (amended): `createSummary` is a pure function of its argument.
For an array whose first item is `null` it throws the
`Object.keys(null)` TypeError; for an array whose first item is a
non-null value of JavaScript type `"object"` it records the item count,
the first three items verbatim and up to ten of the first item's key
names; for any other nonempty array, and for the empty array, it
records count, first items and structure only.  For a non-null object
it records up to twenty top-level key names, plus the array length and
a boolean flag when a `data` field holds an array.  For scalars and
`null` it returns the empty summary. -/
theorem C9_theorem :
    (∀ es : List JValue, es.head? = some JValue.null →
      createSummary (.arr es)
        = .error "Cannot convert undefined or null to object")
    ∧ (∀ (es : List JValue) (h0 : JValue), es.head? = some h0 →
      jsTypeof h0 = "object" → h0 ≠ .null →
      createSummary (.arr es) = .ok (.obj
        [.mk "totalItems" (.num es.length),
         .mk "firstItems" (.arr (es.take 3)),
         .mk "structure" (.str "array"),
         .mk "itemKeys" (.arr (((objKeys h0).take 10).map JValue.str))]))
    ∧ (∀ (es : List JValue) (h0 : JValue), es.head? = some h0 →
      jsTypeof h0 ≠ "object" →
      createSummary (.arr es) = .ok (.obj
        [.mk "totalItems" (.num es.length),
         .mk "firstItems" (.arr (es.take 3)),
         .mk "structure" (.str "array")]))
    ∧ (createSummary (.arr []) = .ok (.obj
        [.mk "totalItems" (.num 0),
         .mk "firstItems" (.arr []),
         .mk "structure" (.str "array")]))
    ∧ (∀ (fs : List JField) (ds : List JValue),
      jlookup fs "data" = some (.arr ds) →
      createSummary (.obj fs) = .ok (.obj
        [.mk "structure" (.str "object"),
         .mk "keys" (.arr (((fs.map JField.key).take 20).map JValue.str)),
         .mk "dataArrayLength" (.num ds.length),
         .mk "hasDataArray" (.bool true)]))
    ∧ (∀ fs : List JField,
      (∀ ds : List JValue, jlookup fs "data" ≠ some (.arr ds)) →
      createSummary (.obj fs) = .ok (.obj
        [.mk "structure" (.str "object"),
         .mk "keys" (.arr (((fs.map JField.key).take 20).map JValue.str))]))
    ∧ (createSummary .null = .ok (.obj []))
    ∧ (∀ b, createSummary (.bool b) = .ok (.obj []))
    ∧ (∀ i, createSummary (.num i) = .ok (.obj []))
    ∧ (∀ s, createSummary (.str s) = .ok (.obj [])) := by
  refine ⟨?_, ?_, ?_, rfl, ?_, ?_, rfl, fun b => ?_, fun i => rfl, fun s => rfl⟩
  · intro es h
    cases es with
    | nil => exact absurd h (by simp)
    | cons e t =>
      have he : e = JValue.null := by simpa using h
      subst he
      rfl
  · intro es h0 hh ht hn
    cases es with
    | nil => exact absurd hh (by simp)
    | cons e t =>
      have he : e = h0 := by simpa using hh
      subst he
      cases e with
      | null => exact absurd rfl hn
      | arr es2 => simp [createSummary, objKeysE, jsTypeof]
      | obj fs2 => simp [createSummary, objKeysE, jsTypeof]
      | bool b => exact absurd ht (by simp [jsTypeof])
      | num i => exact absurd ht (by simp [jsTypeof])
      | str s => exact absurd ht (by simp [jsTypeof])
  · intro es h0 hh ht
    cases es with
    | nil => exact absurd hh (by simp)
    | cons e t =>
      have he : e = h0 := by simpa using hh
      subst he
      cases e with
      | null => exact absurd rfl ht
      | arr es2 => exact absurd rfl ht
      | obj fs2 => exact absurd rfl ht
      | bool b => rfl
      | num i => rfl
      | str s => rfl
  · intro fs ds h
    simp [createSummary, h]
  · intro fs h
    simp only [createSummary]
    cases hl : jlookup fs "data" with
    | none => rfl
    | some dv =>
      cases dv with
      | arr ds => exact absurd hl (h ds)
      | null => rfl
      | bool b => rfl
      | num i => rfl
      | str s => rfl
      | obj fs2 => rfl
  · cases b <;> rfl

/-- C9 witness: the amended behaviors at concrete inputs — an array of
one object, an array of numbers, an object carrying a `data` array, and
an object without one. -/
theorem C9_theorem_witness :
    createSummary (.arr [.obj [.mk "x" (.num 1), .mk "y" (.num 2)]])
      = .ok (.obj
        [.mk "totalItems" (.num 1),
         .mk "firstItems" (.arr [.obj [.mk "x" (.num 1), .mk "y" (.num 2)]]),
         .mk "structure" (.str "array"),
         .mk "itemKeys" (.arr [.str "x", .str "y"])])
    ∧ createSummary (.arr [.num 7, .num 8])
      = .ok (.obj
        [.mk "totalItems" (.num 2),
         .mk "firstItems" (.arr [.num 7, .num 8]),
         .mk "structure" (.str "array")])
    ∧ createSummary (.obj [.mk "data" (.arr [.num 1, .num 2, .num 3])])
      = .ok (.obj
        [.mk "structure" (.str "object"),
         .mk "keys" (.arr [.str "data"]),
         .mk "dataArrayLength" (.num 3),
         .mk "hasDataArray" (.bool true)])
    ∧ createSummary (.obj [.mk "z" (.str "w")])
      = .ok (.obj
        [.mk "structure" (.str "object"),
         .mk "keys" (.arr [.str "z"])]) := by
  refine ⟨?_, ?_, ?_, ?_⟩
  · exact C9_theorem.2.1 [.obj [.mk "x" (.num 1), .mk "y" (.num 2)]]
      (.obj [.mk "x" (.num 1), .mk "y" (.num 2)]) rfl rfl (by simp)
  · exact C9_theorem.2.2.1 [.num 7, .num 8] (.num 7) rfl (by simp [jsTypeof])
  · exact C9_theorem.2.2.2.2.1 [.mk "data" (.arr [.num 1, .num 2, .num 3])]
      [.num 1, .num 2, .num 3] rfl
  · exact C9_theorem.2.2.2.2.2.1 [.mk "z" (.str "w")]
      (fun ds => by simp [jlookup, JField.key])

/-! ### Claim C6: query on non-array values -/

/-- C6 (counterexample): the claim says `queryResponse` fails only when
the navigated value does not exist, and returns every existing
non-array value as-is.  The value at path `a` here is `0` — it exists,
navigation returns it — yet `queryResponse` throws `No data found`,
because the source's guard is the falsy test `!data`, not an existence
test. -/
theorem C6_counterexample :
    navigateResponse 0 "f" stA0 "r1" "a" = .ok (.num 0, stA0)
    ∧ queryResponse (fun _ => none) 0 "f" stA0 "r1" { path := some "a" }
        = .error "Failed to query response r1: No data found at path: a" :=
  ⟨rfl, rfl⟩

/-- C6 (amended): `queryResponse` fails with the `No data found` error
whenever the navigated value is falsy (`null`, `0`, `""`, `false`) —
not only when it is absent; every truthy non-array navigated value is
returned as-is together with its `typeof` tag and the explanatory
message. -/
theorem C6_theorem :
    (∀ (dp : JValue → Option Int) (now : Int) (fid : String) (st : HState)
      (id : String) (q : QuerySpec) (d : JValue) (st1 : HState),
      navigateResponse now fid st id (q.path.getD "") = .ok (d, st1) →
      jsTruthy d = true → (∀ es, d ≠ .arr es) →
      queryResponse dp now fid st id q = .ok (.obj
        [.mk "data" d,
         .mk "type" (.str (jsTypeof d)),
         .mk "message" (.str "Data is not an array, returning as-is")], st1))
    ∧ (∀ (dp : JValue → Option Int) (now : Int) (fid : String) (st : HState)
      (id : String) (q : QuerySpec) (d : JValue) (st1 : HState),
      navigateResponse now fid st id (q.path.getD "") = .ok (d, st1) →
      jsTruthy d = false →
      queryResponse dp now fid st id q = .error
        ("Failed to query response " ++ id ++ ": "
          ++ ("No data found at path: " ++ pathDisp q.path))) := by
  constructor
  · intro dp now fid st id q d st1 hnav ht hna
    unfold queryResponse
    rw [hnav]
    cases d with
    | arr es => exact absurd rfl (hna es)
    | null => exact absurd ht (by decide)
    | bool b => simp [ht]
    | num i => simp [ht]
    | str s => simp [ht]
    | obj fs => simp [ht]
  · intro dp now fid st id q d st1 hnav ht
    unfold queryResponse
    rw [hnav]
    simp [ht]

/-- C6 witness: both amended behaviors at concrete inputs — the falsy
`0` at path `a` raises the wrapped no-data error, and the truthy scalar
at path `a.b` of the navigation state comes back as-is with its type
tag. -/
theorem C6_theorem_witness :
    queryResponse (fun _ => none) 0 "f" stA0 "r1" { path := some "a" }
      = .error ("Failed to query response " ++ "r1" ++ ": "
          ++ ("No data found at path: " ++ pathDisp (some "a")))
    ∧ queryResponse (fun _ => none) 0 "f" stNav "r4" { path := some "a.b" }
      = .ok (.obj
        [.mk "data" (.num 42),
         .mk "type" (.str (jsTypeof (.num 42))),
         .mk "message" (.str "Data is not an array, returning as-is")], stNav) := by
  constructor
  · exact C6_theorem.2 (fun _ => none) 0 "f" stA0 "r1" { path := some "a" }
      (.num 0) stA0 rfl rfl
  · exact C6_theorem.1 (fun _ => none) 0 "f" stNav "r4" { path := some "a.b" }
      (.num 42) stNav rfl rfl (fun es h => JValue.noConfusion h)

/-! ### Claim C10: falsy limit and offset take the defaults -/

/-- C10: in `queryResponse` on an array target, an absent or `0`
(falsy) `limit` is replaced by the default 20 before pagination and the
result echoes `limit: 20` — a caller can never request an intentionally
empty page via limit 0; likewise an absent or `0` `offset` is treated
as 0. -/
theorem C10_theorem :
    ∀ (dp : JValue → Option Int) (now : Int) (fid : String) (st : HState)
      (id : String) (q : QuerySpec) (es : List JValue) (st1 : HState),
      navigateResponse now fid st id (q.path.getD "") = .ok (.arr es, st1) →
      ((q.limit = none ∨ q.limit = some 0) →
        queryResponse dp now fid st id q
          = .ok (mkQueryResult (appliedFilter dp q es)
              (jsOrI q.offset 0) 20, st1))
      ∧ ((q.offset = none ∨ q.offset = some 0) →
        queryResponse dp now fid st id q
          = .ok (mkQueryResult (appliedFilter dp q es)
              0 (jsOrI q.limit 20), st1)) := by
  intro dp now fid st id q es st1 hnav
  have hq : queryResponse dp now fid st id q
      = .ok (mkQueryResult (appliedFilter dp q es)
          (jsOrI q.offset 0) (jsOrI q.limit 20), st1) := by
    unfold queryResponse
    rw [hnav]
    rfl
  constructor
  · intro hl
    rw [hq]
    rcases hl with hl | hl <;> rw [hl] <;> rfl
  · intro ho
    rw [hq]
    rcases ho with ho | ho <;> rw [ho] <;> rfl

/-! ### Claim C4: query filtering and pagination -/

theorem rangePass_nan (dp : JValue → Option Int) (value : JValue) :
    rangePass dp value none = true := by
  unfold rangePass
  rw [show ltO none (dp (jsGetD value "$gte")) = false from rfl]
  rw [show ltO (dp (jsGetD value "$lte")) none = false from by
    cases dp (jsGetD value "$lte") <;> rfl]
  rw [show leO none (dp (jsGetD value "$gt")) = false from rfl]
  rw [show leO (dp (jsGetD value "$lt")) none = false from by
    cases dp (jsGetD value "$lt") <;> rfl]
  simp

/-- C4: querying an array target filters with a logical AND over all
filter keys (an element whose dotted key resolves nowhere — not even
through the prototype chain — is excluded), then paginates by skipping
`offset` and taking up to `limit`; the result carries the page, `total`
equal to the post-filter count, the echoed offset and limit, `hasMore`
true exactly when `offset + limit < total`, and the summary message.  A
dotted key that resolves to an inherited built-in method (e.g.
`toString`) excludes the element under an equality filter (a function
is never `===` a request value) but keeps it under a range filter: the
method's date coercion is NaN, and every range bound passes against
NaN. -/
theorem C4_theorem :
    (∀ (dp : JValue → Option Int) (now : Int) (fid : String) (st : HState)
      (id : String) (q : QuerySpec) (es : List JValue) (st1 : HState),
      navigateResponse now fid st id (q.path.getD "") = .ok (.arr es, st1) →
      queryResponse dp now fid st id q
        = .ok (mkQueryResult (appliedFilter dp q es)
            (jsOrI q.offset 0) (jsOrI q.limit 20), st1))
    ∧ (∀ (dp : JValue → Option Int) (f : List (String × JValue))
      (item : JValue),
      matchesItem dp f item
        = (jsTruthy item && (jsTypeof item == "object")
            && f.all (matchesEntry dp item)))
    ∧ (∀ (dp : JValue → Option Int) (f : List (String × JValue))
      (item : JValue),
      matchesItem dp f item = true →
      ∀ kv ∈ f, matchesEntry dp item kv = true)
    ∧ (∀ (dp : JValue → Option Int) (item : JValue) (k : String)
      (v : JValue),
      dotWalk (.js item) ((splitChar '.' k.data).map String.mk) = none →
      matchesEntry dp item (k, v) = false)
    ∧ (∀ (dp : JValue → Option Int) (item : JValue) (k : String)
      (v : JValue),
      dotWalk (.js item) ((splitChar '.' k.data).map String.mk) = some .fn →
      isRangeObj v = false →
      matchesEntry dp item (k, v) = false)
    ∧ (∀ (dp : JValue → Option Int) (item : JValue) (k : String)
      (v : JValue),
      dotWalk (.js item) ((splitChar '.' k.data).map String.mk) = some .fn →
      isRangeObj v = true →
      matchesEntry dp item (k, v) = true)
    ∧ (∀ (dp : JValue → Option Int) (value : JValue),
      rangePass dp value none = true)
    ∧ (∀ (results : List JValue) (off lim : Int), 0 ≤ off → 0 ≤ lim →
      jsSlice results off (off + lim)
        = (results.drop off.toNat).take lim.toNat)
    ∧ (∀ (results : List JValue) (off lim : Int),
      mkQueryResult results off lim = .obj
        [.mk "results" (.arr (jsSlice results off (off + lim))),
         .mk "total" (.num results.length),
         .mk "offset" (.num off),
         .mk "limit" (.num lim),
         .mk "hasMore" (.bool (decide (off + lim < (results.length : Int)))),
         .mk "message" (.str ("Showing "
            ++ natStr (jsSlice results off (off + lim)).length ++ " of "
            ++ natStr results.length ++ " results"))])
    ∧ (∀ (off lim : Int) (n : Nat),
      (decide (off + lim < (n : Int)) = true) ↔ off + lim < (n : Int)) := by
  refine ⟨?_, ?_, ?_, ?_, ?_, ?_, ?_, ?_, ?_, ?_⟩
  · intro dp now fid st id q es st1 hnav
    unfold queryResponse
    rw [hnav]
    rfl
  · intro dp f item
    rfl
  · intro dp f item h kv hkv
    unfold matchesItem at h
    simp only [Bool.and_eq_true] at h
    exact List.all_eq_true.mp h.2 kv hkv
  · intro dp item k v h
    unfold matchesEntry
    rw [h]
  · intro dp item k v h hr
    unfold matchesEntry
    rw [h]
    rw [hr]
    rfl
  · intro dp item k v h hr
    unfold matchesEntry
    rw [h]
    rw [hr]
    show rangePass dp v (dpN dp .fn) = true
    exact rangePass_nan dp v
  · intro dp value
    exact rangePass_nan dp value
  · intro results off lim ho hl
    unfold jsSlice
    dsimp only
    rw [if_neg (by omega), if_neg (by omega)]
    by_cases hc : off ≤ (results.length : Int)
    · rw [min_eq_left hc, List.take_eq_take]
      simp only [List.length_drop]
      omega
    · rw [min_eq_right (by omega : (results.length : Int) ≤ off)]
      have h2 : results.drop ((results.length : Int)).toNat = [] := by
        apply List.drop_eq_nil_of_le
        simp
      have h3 : results.drop off.toNat = [] := by
        apply List.drop_eq_nil_of_le
        omega
      rw [h2, h3]
      simp
  · intro results off lim
    rfl
  · intro off lim n
    simp

/-- C4 witness: the spec's own example — filtering the three-item array
on `status: "open"` with limit 2 keeps the two open items, with
`total = 2` and `hasMore = false` — plus the pagination identity at
offset 0, limit 2, and the prototype-chain filter behaviors: the
`toString` key on an empty object resolves to the inherited method,
which an equality filter rejects and a range filter accepts. -/
theorem C4_theorem_witness :
    queryResponse (fun _ => none) 0 "f" stItems "r2"
        { path := some "items",
          filter := some [("status", JValue.str "open")],
          limit := some 2, offset := some 0 }
      = .ok (mkQueryResult
          (appliedFilter (fun _ => none)
            { path := some "items",
              filter := some [("status", JValue.str "open")],
              limit := some 2, offset := some 0 } itemsList)
          (jsOrI (some 0) 0) (jsOrI (some 2) 20), stItems)
    ∧ queryResponse (fun _ => none) 0 "f" stItems "r2"
        { path := some "items",
          filter := some [("status", JValue.str "open")],
          limit := some 2, offset := some 0 }
      = .ok (.obj
          [.mk "results" (.arr
            [.obj [.mk "status" (.str "open")],
             .obj [.mk "status" (.str "open")]]),
           .mk "total" (.num 2),
           .mk "offset" (.num 0),
           .mk "limit" (.num 2),
           .mk "hasMore" (.bool false),
           .mk "message" (.str "Showing 2 of 2 results")], stItems)
    ∧ matchesEntry (fun _ => none) (.obj [])
        ("toString", .str "x") = false
    ∧ matchesEntry (fun _ => none) (.obj [])
        ("toString", .obj [.mk "$gte" (.str "2024-01-01")]) = true
    ∧ jsSlice ([.num 1, .num 2, .num 3] : List JValue) 0 (0 + 2)
        = (([.num 1, .num 2, .num 3] : List JValue).drop
            ((0 : Int)).toNat).take ((2 : Int)).toNat := by
  obtain ⟨t1, t2, t3, t4, t5, t6, t7, t8, t9, t10⟩ := C4_theorem
  refine ⟨?_, rfl, ?_, ?_, ?_⟩
  · exact t1 (fun _ => none) 0 "f" stItems "r2"
      { path := some "items",
        filter := some [("status", JValue.str "open")],
        limit := some 2, offset := some 0 } itemsList stItems rfl
  · exact t5 (fun _ => none) (.obj []) "toString" (.str "x") rfl rfl
  · exact t6 (fun _ => none) (.obj [])
      "toString" (.obj [.mk "$gte" (.str "2024-01-01")]) rfl rfl
  · exact t8 [.num 1, .num 2, .num 3] 0 2 (by decide) (by decide)

/-! ### Claim C7: CSV export -/

/-- C10 witness: querying the concrete `items` array with `limit: 0`
and no offset goes through the theorem, yielding the default-20 page. -/
theorem C10_theorem_witness :
    queryResponse (fun _ => none) 0 "f" stItems "r2"
        { path := some "items", limit := some 0 }
      = .ok (mkQueryResult
          (appliedFilter (fun _ => none)
            { path := some "items", limit := some 0 } itemsList)
          (jsOrI none 0) 20, stItems) :=
  (C10_theorem (fun _ => none) 0 "f" stItems "r2"
    { path := some "items", limit := some 0 } itemsList stItems rfl).1
    (Or.inr rfl)

/-! ### C3: path resolution -/

theorem charIn_cons (t c : Char) (cs : List Char) :
    charIn t (c :: cs) = ((c == t) || charIn t cs) := by
  unfold charIn
  rw [List.any_cons]

theorem charIn_append (t : Char) (a b : List Char) :
    charIn t (a ++ b) = (charIn t a || charIn t b) := by
  unfold charIn
  exact List.any_append

theorem charIn_self_mid (t : Char) (a b : List Char) :
    charIn t (a ++ t :: b) = true := by
  rw [charIn_append, charIn_cons]
  simp

theorem splitCharAux_cons (sep c : Char) (rest acc : List Char) :
    splitCharAux sep (c :: rest) acc
      = if c = sep then acc.reverse :: splitCharAux sep rest []
        else splitCharAux sep rest (c :: acc) := rfl

theorem splitCharAux_no_sep (sep : Char) (cs : List Char) :
    ∀ acc, charIn sep cs = false →
      splitCharAux sep cs acc = [acc.reverse ++ cs] := by
  induction cs with
  | nil => intro acc h; simp [splitCharAux]
  | cons c rest ih =>
    intro acc h
    rw [charIn_cons] at h
    have hcs : (c == sep) = false := by
      cases hh : (c == sep) with
      | false => rfl
      | true => rw [hh] at h; simp at h
    have hrest : charIn sep rest = false := by
      cases hh : charIn sep rest with
      | false => rfl
      | true => rw [hh] at h; simp at h
    rw [splitCharAux_cons]
    rw [if_neg (by intro he; rw [he] at hcs; simp at hcs)]
    rw [ih (c :: acc) hrest]
    simp

theorem splitCharAux_sep (sep : Char) (pre rest : List Char) :
    ∀ acc, charIn sep pre = false →
      splitCharAux sep (pre ++ sep :: rest) acc
        = (acc.reverse ++ pre) :: splitCharAux sep rest [] := by
  induction pre with
  | nil =>
    intro acc h
    rw [List.nil_append]
    rw [splitCharAux_cons]
    rw [if_pos rfl]
    rw [List.append_nil]
  | cons c pre ih =>
    intro acc h
    rw [charIn_cons] at h
    have hcs : (c == sep) = false := by
      cases hh : (c == sep) with
      | false => rfl
      | true => rw [hh] at h; simp at h
    have hrest : charIn sep pre = false := by
      cases hh : charIn sep pre with
      | false => rfl
      | true => rw [hh] at h; simp at h
    rw [List.cons_append]
    rw [splitCharAux_cons]
    rw [if_neg (by intro he; rw [he] at hcs; simp at hcs)]
    rw [ih (c :: acc) hrest]
    simp

theorem splitChar_no_sep (sep : Char) (cs : List Char)
    (h : charIn sep cs = false) : splitChar sep cs = [cs] := by
  unfold splitChar
  rw [splitCharAux_no_sep sep cs [] h]
  rfl

theorem splitChar_sep (sep : Char) (pre rest : List Char)
    (h : charIn sep pre = false) :
    splitChar sep (pre ++ sep :: rest) = pre :: splitChar sep rest := by
  unfold splitChar
  rw [splitCharAux_sep sep pre rest [] h]
  rfl

theorem removeFirstChar_append (t : Char) (pre rest : List Char)
    (h : charIn t pre = false) :
    removeFirstChar t (pre ++ t :: rest) = pre ++ rest := by
  induction pre with
  | nil => simp [removeFirstChar]
  | cons c pre ih =>
    rw [charIn_cons] at h
    have hcs : (c == t) = false := by
      cases hh : (c == t) with
      | false => rfl
      | true => rw [hh] at h; simp at h
    have hrest : charIn t pre = false := by
      cases hh : charIn t pre with
      | false => rfl
      | true => rw [hh] at h; simp at h
    rw [List.cons_append]
    unfold removeFirstChar
    rw [if_neg (by intro he; rw [he] at hcs; simp at hcs)]
    rw [ih hrest]
    rfl

theorem navParts_cons (part : String) (rest : List String) (cur : NVal)
    (h : cur ≠ NVal.js JValue.null) :
    navParts (part :: rest) (some cur)
      = match stepSegment part cur with
        | .error e => .error e
        | .ok c2 => navParts rest c2 := by
  cases cur with
  | js v =>
    cases v with
    | null => exact absurd rfl h
    | bool b => rfl
    | num i => rfl
    | str s => rfl
    | arr es => rfl
    | obj fs => rfl
  | fn => rfl
  | protoO => rfl
  | protoA => rfl

theorem navigateResponse_single (now : Int) (fid : String) (st : HState)
    (id part : String) (current : JValue)
    (hload : loadResponse st id = .ok current)
    (hdot : charIn '.' part.data = false)
    (hne : ¬ part = "")
    (hnull : current ≠ JValue.null) :
    navigateResponse now fid st id part
      = match stepSegment part (.js current) with
        | .error e => .error e
        | .ok none =>
          .error "Cannot read properties of undefined (reading 'length')"
        | .ok (some nv) =>
          match stringifyN nv with
          | none =>
            .error "Cannot read properties of undefined (reading 'length')"
          | some res =>
            if jlenStr res > MAX_RESPONSE_SIZE then
              handleResponse now fid (jimage nv) st
            else .ok (jimage nv, st) := by
  have hcore : navigateCore part current
      = match stepSegment part (NVal.js current) with
        | .error e => .error e
        | .ok c2 => .ok c2 := by
    unfold navigateCore
    rw [if_neg hne, splitChar_no_sep '.' part.data hdot]
    rw [List.map_cons, List.map_nil]
    rw [show String.mk part.data = part from rfl]
    rw [navParts_cons part [] (.js current)
      (fun he => hnull (NVal.js.inj he))]
    cases hs : stepSegment part (NVal.js current) with
    | error e => rfl
    | ok c2 => rfl
  unfold navigateResponse
  rw [hload]
  dsimp only
  rw [hcore]
  cases hs : stepSegment part (NVal.js current) with
  | error e => rfl
  | ok c2 =>
    cases c2 with
    | none => rfl
    | some nv => cases nv <;> rfl

theorem stepSegment_indexed (name istr : String) (current : NVal)
    (hn : charIn '[' name.data = false)
    (hi1 : charIn '[' istr.data = false)
    (hi2 : charIn ']' istr.data = false) :
    stepSegment (name ++ "[" ++ istr ++ "]") current
      = (if name.data.isEmpty then
          (if isArrayN current then
            match jsParseInt istr with
            | some i =>
              if i < 0 ∨ (lenN current : Int) ≤ i then
                .error ("Array index " ++ intStr i ++ " out of bounds (length: "
                  ++ natStr (lenN current) ++ ")")
              else .ok (elemN current i.toNat)
            | none => .ok none
          else
            .error ("Cannot access index " ++ idxDisp (jsParseInt istr)
              ++ " - current value is not an array"))
        else
          match jsInE name current with
          | .error e => .error e
          | .ok inb =>
            if !inb then
              .error ("Property '" ++ name ++ "' not found in current object")
            else
              match getN current name with
              | some a =>
                if isArrayN a then
                  match jsParseInt istr with
                  | some i =>
                    if i < 0 ∨ (lenN a : Int) ≤ i then
                      .error ("Array index " ++ intStr i
                        ++ " out of bounds for '" ++ name ++ "' (length: "
                        ++ natStr (lenN a) ++ ")")
                    else .ok (elemN a i.toNat)
                  | none => .ok none
                else .error ("Property '" ++ name ++ "' is not an array")
              | none =>
                .error ("Property '" ++ name ++ "' is not an array")) := by
  have hdata : (name ++ "[" ++ istr ++ "]").data
      = name.data ++ '[' :: (istr.data ++ [']']) := by
    simp [String.data_append]
  have h1 : charIn '[' (name.data ++ '[' :: (istr.data ++ [']'])) = true :=
    charIn_self_mid '[' name.data _
  have h2 : charIn ']' (name.data ++ '[' :: (istr.data ++ [']'])) = true := by
    rw [show name.data ++ '[' :: (istr.data ++ [']'])
        = (name.data ++ '[' :: istr.data) ++ ']' :: [] by simp]
    exact charIn_self_mid ']' _ []
  have hsplit : splitChar '[' (name.data ++ '[' :: (istr.data ++ [']']))
      = [name.data, istr.data ++ [']']] := by
    rw [splitChar_sep '[' name.data _ hn]
    rw [splitChar_no_sep '[' _ (by rw [charIn_append, hi1]; rfl)]
  have hrm : removeFirstChar ']' (istr.data ++ [']']) = istr.data := by
    have := removeFirstChar_append ']' istr.data [] hi2
    simpa using this
  unfold stepSegment
  rw [hdata, h1, h2]
  rw [if_pos (by decide : (true && true) = true)]
  rw [hsplit]
  dsimp only
  rw [hrm]

/-- C3: path resolution in `navigateResponse` — an empty path returns
the root unmodified; a plain segment on a non-null object-typed value
resolves `part in current` through the prototype chain and returns
`current[part]` (an own value, or an inherited built-in — a single
trailing inherited method makes the final `JSON.stringify` return
`undefined`, so the call throws the reading-`length` TypeError), and a
really absent name fails naming the missing property and up to ten
available keys; a plain segment on a non-object fails naming the
runtime type; `name[idx]` requires an `in`-present, array-typed
property and an index in bounds, else fails citing the index and the
array length, an inherited method (e.g. `toString[0]`) failing as
`is not an array`; a bare `[idx]` applies the same bounds check to the
current value itself. -/
theorem C3_theorem :
    (∀ (now : Int) (fid : String) (st : HState) (id : String) (root : JValue),
      loadResponse st id = .ok root →
      jlenStr (stringifyStr root) ≤ MAX_RESPONSE_SIZE →
      navigateResponse now fid st id "" = .ok (root, st))
    ∧ (∀ root : JValue, navigateCore "" root = .ok (some (.js root)))
    ∧ (∀ (now : Int) (fid : String) (st : HState) (id part : String)
        (current v : JValue),
      loadResponse st id = .ok current →
      charIn '.' part.data = false → ¬ part = "" → current ≠ JValue.null →
      stepSegment part (.js current) = .ok (some (.js v)) →
      jlenStr (stringifyStr v) ≤ MAX_RESPONSE_SIZE →
      navigateResponse now fid st id part = .ok (v, st))
    ∧ (∀ (now : Int) (fid : String) (st : HState) (id part : String)
        (current : JValue) (e : String),
      loadResponse st id = .ok current →
      charIn '.' part.data = false → ¬ part = "" → current ≠ JValue.null →
      stepSegment part (.js current) = .error e →
      navigateResponse now fid st id part = .error e)
    ∧ (∀ (now : Int) (fid : String) (st : HState) (id part : String)
        (current : JValue),
      loadResponse st id = .ok current →
      charIn '.' part.data = false → ¬ part = "" → current ≠ JValue.null →
      stepSegment part (.js current) = .ok (some .fn) →
      navigateResponse now fid st id part
        = .error "Cannot read properties of undefined (reading 'length')")
    ∧ (∀ (now : Int) (fid : String) (st : HState) (id part : String)
        (current : JValue),
      loadResponse st id = .ok current →
      charIn '.' part.data = false → ¬ part = "" → current ≠ JValue.null →
      stepSegment part (.js current) = .ok (some .protoO) →
      navigateResponse now fid st id part = .ok (.obj [], st))
    ∧ (∀ (part : String) (rest : List String),
      navParts (part :: rest) (some (.js JValue.null))
        = .error ("Cannot navigate to '" ++ part ++ "' - parent is null"))
    ∧ (∀ (part : String) (cur : NVal),
      (charIn '[' part.data && charIn ']' part.data) = false →
      jsTypeofN cur = "object" → cur ≠ NVal.js JValue.null →
      inNV part cur = true →
      stepSegment part cur = .ok (getN cur part))
    ∧ (∀ (part : String) (cur : NVal),
      (charIn '[' part.data && charIn ']' part.data) = false →
      jsTypeofN cur = "object" → cur ≠ NVal.js JValue.null →
      inNV part cur = false →
      stepSegment part cur = .error (missingPropMsg part (objKeysN cur)))
    ∧ (∀ (part : String) (keys : List String),
      missingPropMsg part keys
        = "Property \'" ++ part ++ "\' not found. Available keys: "
          ++ String.intercalate ", " (keys.take 10)
          ++ (if keys.length > 10 then "..." else ""))
    ∧ (∀ (part : String) (cur : NVal),
      (charIn '[' part.data && charIn ']' part.data) = false →
      jsTypeofN cur ≠ "object" →
      stepSegment part cur
        = .error ("Cannot access property \'" ++ part
            ++ "\' - current value is " ++ jsTypeofN cur))
    ∧ (∀ (fs : List JField) (k : String),
      jlookup fs k = none → ¬ k = "__proto__" →
      objProtoKeys.contains k = true →
      getN (.js (.obj fs)) k = some .fn)
    ∧ (∀ (fs : List JField),
      jlookup fs "__proto__" = none →
      getN (.js (.obj fs)) "__proto__" = some .protoO)
    ∧ (∀ (name istr : String) (cur a : NVal) (i : Int),
      charIn '[' name.data = false → ¬ name = "" →
      charIn '[' istr.data = false → charIn ']' istr.data = false →
      jsInE name cur = .ok true →
      getN cur name = some a →
      isArrayN a = true →
      jsParseInt istr = some i →
      ¬ (i < 0 ∨ (lenN a : Int) ≤ i) →
      stepSegment (name ++ "[" ++ istr ++ "]") cur = .ok (elemN a i.toNat))
    ∧ (∀ (name istr : String) (cur a : NVal) (i : Int),
      charIn '[' name.data = false → ¬ name = "" →
      charIn '[' istr.data = false → charIn ']' istr.data = false →
      jsInE name cur = .ok true →
      getN cur name = some a →
      isArrayN a = true →
      jsParseInt istr = some i →
      (i < 0 ∨ (lenN a : Int) ≤ i) →
      stepSegment (name ++ "[" ++ istr ++ "]") cur
        = .error ("Array index " ++ intStr i ++ " out of bounds for \'"
            ++ name ++ "\' (length: " ++ natStr (lenN a) ++ ")"))
    ∧ (∀ (name istr : String) (cur a : NVal),
      charIn '[' name.data = false → ¬ name = "" →
      charIn '[' istr.data = false → charIn ']' istr.data = false →
      jsInE name cur = .ok true →
      getN cur name = some a →
      isArrayN a = false →
      stepSegment (name ++ "[" ++ istr ++ "]") cur
        = .error ("Property \'" ++ name ++ "\' is not an array"))
    ∧ (∀ (name istr : String) (cur : NVal),
      charIn '[' name.data = false → ¬ name = "" →
      charIn '[' istr.data = false → charIn ']' istr.data = false →
      jsInE name cur = .ok false →
      stepSegment (name ++ "[" ++ istr ++ "]") cur
        = .error ("Property \'" ++ name ++ "\' not found in current object"))
    ∧ (∀ (istr : String) (es : List JValue) (i : Int),
      charIn '[' istr.data = false → charIn ']' istr.data = false →
      jsParseInt istr = some i →
      ¬ (i < 0 ∨ ((es.length : Nat) : Int) ≤ i) →
      stepSegment ("[" ++ istr ++ "]") (.js (.arr es))
        = .ok (elemN (.js (.arr es)) i.toNat))
    ∧ (∀ (istr : String) (es : List JValue) (i : Int),
      charIn '[' istr.data = false → charIn ']' istr.data = false →
      jsParseInt istr = some i →
      (i < 0 ∨ ((es.length : Nat) : Int) ≤ i) →
      stepSegment ("[" ++ istr ++ "]") (.js (.arr es))
        = .error ("Array index " ++ intStr i ++ " out of bounds (length: "
            ++ natStr es.length ++ ")"))
    ∧ (∀ (istr : String) (cur : NVal),
      charIn '[' istr.data = false → charIn ']' istr.data = false →
      isArrayN cur = false →
      stepSegment ("[" ++ istr ++ "]") cur
        = .error ("Cannot access index " ++ idxDisp (jsParseInt istr)
            ++ " - current value is not an array")) := by
  refine ⟨?_, ?_, ?_, ?_, ?_, ?_, ?_, ?_, ?_, ?_, ?_, ?_, ?_, ?_, ?_, ?_,
    ?_, ?_, ?_, ?_⟩
  · intro now fid st id root hload hsize
    unfold navigateResponse
    rw [hload]
    dsimp only
    have hcore : navigateCore "" root = .ok (some (.js root)) := by
      unfold navigateCore
      rw [if_pos rfl]
    rw [hcore]
    dsimp only
    rw [show stringifyN (.js root) = some (stringifyStr root) from rfl]
    dsimp only
    rw [if_neg (by omega)]
    rfl
  · intro root
    unfold navigateCore
    rw [if_pos rfl]
  · intro now fid st id part current v hload hdot hne hnull hstep hsize
    rw [navigateResponse_single now fid st id part current hload hdot hne hnull]
    rw [hstep]
    dsimp only
    rw [show stringifyN (.js v) = some (stringifyStr v) from rfl]
    dsimp only
    rw [if_neg (by omega)]
    rfl
  · intro now fid st id part current e hload hdot hne hnull hstep
    rw [navigateResponse_single now fid st id part current hload hdot hne hnull]
    rw [hstep]
  · intro now fid st id part current hload hdot hne hnull hstep
    rw [navigateResponse_single now fid st id part current hload hdot hne hnull]
    rw [hstep]
    dsimp only
    rw [show stringifyN NVal.fn = none from rfl]
  · intro now fid st id part current hload hdot hne hnull hstep
    rw [navigateResponse_single now fid st id part current hload hdot hne hnull]
    rw [hstep]
    dsimp only
    rw [show stringifyN NVal.protoO = some (stringifyStr (.obj [])) from rfl]
    dsimp only
    rw [if_neg (by decide)]
    rfl
  · intro part rest
    rfl
  · intro part cur hbr hobj hnull hin
    unfold stepSegment
    rw [hbr]
    rw [if_neg (show ¬ false = true by decide)]
    have hb : (jsTypeofN cur != "object") = false := by rw [hobj]; rfl
    rw [hb]
    rw [if_neg (show ¬ false = true by decide)]
    cases cur with
    | js v =>
      cases v with
      | null => exact absurd rfl hnull
      | bool b => simp [jsTypeofN, jsTypeof] at hobj
      | num i => simp [jsTypeofN, jsTypeof] at hobj
      | str s => simp [jsTypeofN, jsTypeof] at hobj
      | arr es => dsimp only; rw [if_pos hin]
      | obj fs => dsimp only; rw [if_pos hin]
    | fn => simp [jsTypeofN] at hobj
    | protoO => dsimp only; rw [if_pos hin]
    | protoA => dsimp only; rw [if_pos hin]
  · intro part cur hbr hobj hnull hin
    unfold stepSegment
    rw [hbr]
    rw [if_neg (show ¬ false = true by decide)]
    have hb : (jsTypeofN cur != "object") = false := by rw [hobj]; rfl
    rw [hb]
    rw [if_neg (show ¬ false = true by decide)]
    cases cur with
    | js v =>
      cases v with
      | null => exact absurd rfl hnull
      | bool b => simp [jsTypeofN, jsTypeof] at hobj
      | num i => simp [jsTypeofN, jsTypeof] at hobj
      | str s => simp [jsTypeofN, jsTypeof] at hobj
      | arr es => dsimp only; rw [if_neg (by simp [hin])]
      | obj fs => dsimp only; rw [if_neg (by simp [hin])]
    | fn => simp [jsTypeofN] at hobj
    | protoO => dsimp only; rw [if_neg (by simp [hin])]
    | protoA => dsimp only; rw [if_neg (by simp [hin])]
  · intro part keys
    rfl
  · intro part cur hbr hobj
    unfold stepSegment
    rw [hbr]
    rw [if_neg (show ¬ false = true by decide)]
    have hb : (jsTypeofN cur != "object") = true := by
      cases hh : (jsTypeofN cur == "object") with
      | true => exact absurd (by simpa using hh) hobj
      | false => simp [bne, hh]
    rw [hb]
    rw [if_pos rfl]
  · intro fs k hl hp hc
    unfold getN
    dsimp only
    rw [hl]
    dsimp only
    rw [if_neg hp, if_pos hc]
  · intro fs hl
    unfold getN
    dsimp only
    rw [hl]
    dsimp only
    rw [if_pos rfl]
  · intro name istr cur a i hn hnee hi1 hi2 hin hget harr hidx hbound
    rw [stepSegment_indexed name istr cur hn hi1 hi2]
    have hem : name.data.isEmpty = false := by
      cases name with
      | mk l =>
        cases l with
        | nil => exact absurd rfl hnee
        | cons c cs => rfl
    rw [if_neg (by simp [hem])]
    rw [hin]
    dsimp only
    rw [if_neg (by decide)]
    rw [hget]
    dsimp only
    rw [if_pos harr]
    rw [hidx]
    dsimp only
    rw [if_neg hbound]
  · intro name istr cur a i hn hnee hi1 hi2 hin hget harr hidx hbound
    rw [stepSegment_indexed name istr cur hn hi1 hi2]
    have hem : name.data.isEmpty = false := by
      cases name with
      | mk l =>
        cases l with
        | nil => exact absurd rfl hnee
        | cons c cs => rfl
    rw [if_neg (by simp [hem])]
    rw [hin]
    dsimp only
    rw [if_neg (by decide)]
    rw [hget]
    dsimp only
    rw [if_pos harr]
    rw [hidx]
    dsimp only
    rw [if_pos hbound]
  · intro name istr cur a hn hnee hi1 hi2 hin hget harr
    rw [stepSegment_indexed name istr cur hn hi1 hi2]
    have hem : name.data.isEmpty = false := by
      cases name with
      | mk l =>
        cases l with
        | nil => exact absurd rfl hnee
        | cons c cs => rfl
    rw [if_neg (by simp [hem])]
    rw [hin]
    dsimp only
    rw [if_neg (by decide)]
    rw [hget]
    dsimp only
    rw [if_neg (by simp [harr])]
  · intro name istr cur hn hnee hi1 hi2 hin
    rw [stepSegment_indexed name istr cur hn hi1 hi2]
    have hem : name.data.isEmpty = false := by
      cases name with
      | mk l =>
        cases l with
        | nil => exact absurd rfl hnee
        | cons c cs => rfl
    rw [if_neg (by simp [hem])]
    rw [hin]
    dsimp only
    rw [if_pos (by decide)]
  · intro istr es i hi1 hi2 hidx hbound
    rw [show ("[" ++ istr ++ "]" : String) = ("" ++ "[" ++ istr ++ "]" : String)
      from rfl]
    rw [stepSegment_indexed "" istr (.js (.arr es)) rfl hi1 hi2]
    rw [if_pos (by decide : ("" : String).data.isEmpty = true)]
    rw [if_pos (show isArrayN (.js (.arr es)) = true from rfl)]
    rw [hidx]
    dsimp only
    rw [if_neg (by simpa [lenN] using hbound)]
  · intro istr es i hi1 hi2 hidx hbound
    rw [show ("[" ++ istr ++ "]" : String) = ("" ++ "[" ++ istr ++ "]" : String)
      from rfl]
    rw [stepSegment_indexed "" istr (.js (.arr es)) rfl hi1 hi2]
    rw [if_pos (by decide : ("" : String).data.isEmpty = true)]
    rw [if_pos (show isArrayN (.js (.arr es)) = true from rfl)]
    rw [hidx]
    dsimp only
    rw [if_pos (by simpa [lenN] using hbound)]
    rfl
  · intro istr cur hi1 hi2 harr
    rw [show ("[" ++ istr ++ "]" : String) = ("" ++ "[" ++ istr ++ "]" : String)
      from rfl]
    rw [stepSegment_indexed "" istr cur rfl hi1 hi2]
    rw [if_pos (by decide : ("" : String).data.isEmpty = true)]
    rw [if_neg (by simp [harr])]

/-- C3 witness: the navigation behaviors at the concrete `stNav` state
and small concrete values, one instance per hypothesised conjunct,
including the prototype-chain cases: `toString` on the root resolves to
the inherited method and the call throws the reading-`length`
TypeError, `toString[0]` fails as not-an-array, and `__proto__` returns
the prototype's empty JSON image. -/
theorem C3_theorem_witness :
    (navigateResponse 0 "f" stNav "r4" "" = .ok (navRoot, stNav))
    ∧ (navigateResponse 0 "f" stNav "r4" "a"
        = .ok (.obj [.mk "b" (.num 42)], stNav))
    ∧ (navigateResponse 0 "f" stNav "r4" "x"
        = .error (missingPropMsg "x" (objKeysN (.js navRoot))))
    ∧ (navigateResponse 0 "f" stNav "r4" "toString"
        = .error "Cannot read properties of undefined (reading 'length')")
    ∧ (navigateResponse 0 "f" stNav "r4" "__proto__" = .ok (.obj [], stNav))
    ∧ (stepSegment "a" (.js navRoot) = .ok (getN (.js navRoot) "a"))
    ∧ (stepSegment "x" (.js navRoot)
        = .error (missingPropMsg "x" (objKeysN (.js navRoot))))
    ∧ (stepSegment "a" (.js (.num 3))
        = .error ("Cannot access property \'" ++ "a"
            ++ "\' - current value is " ++ jsTypeofN (.js (.num 3))))
    ∧ (getN (.js (.obj [])) "toString" = some .fn)
    ∧ (getN (.js (.obj [])) "__proto__" = some .protoO)
    ∧ (stepSegment "items[1]" (.js navRoot) = .ok (some (.js (.num 20))))
    ∧ (stepSegment "items[5]" (.js navRoot)
        = .error ("Array index " ++ intStr 5 ++ " out of bounds for \'"
            ++ "items" ++ "\' (length: " ++ natStr 3 ++ ")"))
    ∧ (stepSegment "toString[0]" (.js navRoot)
        = .error ("Property \'" ++ "toString" ++ "\' is not an array"))
    ∧ (stepSegment "a[0]" (.js navRoot)
        = .error ("Property \'" ++ "a" ++ "\' is not an array"))
    ∧ (stepSegment "z[0]" (.js navRoot)
        = .error ("Property \'" ++ "z" ++ "\' not found in current object"))
    ∧ (stepSegment "[0]" (.js (.arr [.num 7, .num 8]))
        = .ok (some (.js (.num 7))))
    ∧ (stepSegment "[9]" (.js (.arr [.num 7, .num 8]))
        = .error ("Array index " ++ intStr 9 ++ " out of bounds (length: "
            ++ natStr 2 ++ ")"))
    ∧ (stepSegment "[0]" (.js (.obj []))
        = .error ("Cannot access index " ++ idxDisp (jsParseInt "0")
            ++ " - current value is not an array")) := by
  obtain ⟨t1, t2, t3, t4, t5, t6, t7, t8, t9, t10, t11, t12, t13, t14, t15,
    t16, t17, t18, t19, t20⟩ := C3_theorem
  refine ⟨?_, ?_, ?_, ?_, ?_, ?_, ?_, ?_, ?_, ?_, ?_, ?_, ?_, ?_, ?_, ?_,
    ?_, ?_⟩
  · exact t1 0 "f" stNav "r4" navRoot rfl (by decide)
  · exact t3 0 "f" stNav "r4" "a" navRoot (.obj [.mk "b" (.num 42)]) rfl rfl
      (by decide) (fun h => JValue.noConfusion h) rfl (by decide)
  · exact t4 0 "f" stNav "r4" "x" navRoot _ rfl rfl (by decide)
      (fun h => JValue.noConfusion h)
      (t9 "x" (.js navRoot) rfl rfl (fun h => JValue.noConfusion (NVal.js.inj h)) rfl)
  · exact t5 0 "f" stNav "r4" "toString" navRoot rfl rfl (by decide)
      (fun h => JValue.noConfusion h) rfl
  · exact t6 0 "f" stNav "r4" "__proto__" navRoot rfl rfl (by decide)
      (fun h => JValue.noConfusion h) rfl
  · exact t8 "a" (.js navRoot) rfl rfl (fun h => JValue.noConfusion (NVal.js.inj h)) rfl
  · exact t9 "x" (.js navRoot) rfl rfl (fun h => JValue.noConfusion (NVal.js.inj h)) rfl
  · exact t11 "a" (.js (.num 3)) rfl (by decide)
  · exact t12 [] "toString" rfl (by decide) (by decide)
  · exact t13 [] rfl
  · exact (t14 "items" "1" (.js navRoot)
      (.js (.arr [.num 10, .num 20, .num 30])) 1 rfl (by decide)
      rfl rfl rfl rfl rfl rfl (by decide)).trans rfl
  · exact t15 "items" "5" (.js navRoot)
      (.js (.arr [.num 10, .num 20, .num 30])) 5 rfl (by decide)
      rfl rfl rfl rfl rfl rfl (by decide)
  · exact t16 "toString" "0" (.js navRoot) .fn rfl (by decide) rfl rfl
      rfl rfl rfl
  · exact t16 "a" "0" (.js navRoot) (.js (.obj [.mk "b" (.num 42)])) rfl
      (by decide) rfl rfl rfl rfl rfl
  · exact t17 "z" "0" (.js navRoot) rfl (by decide) rfl rfl rfl
  · exact (t18 "0" [.num 7, .num 8] 0 rfl rfl rfl (by decide)).trans rfl
  · exact t19 "9" [.num 7, .num 8] 9 rfl rfl rfl (by decide)
  · exact t20 "0" (.js (.obj [])) rfl rfl rfl

/-! ### C1, C2, C5, C8: the size gate, offload round-trip, eviction and size metadata -/

theorem sum_map_replicate {α : Type} (f : α → Nat) (c : α) :
    ∀ n, ((List.replicate n c).map f).sum = n * f c := by
  intro n
  induction n with
  | zero => simp
  | succ n ih =>
    rw [List.replicate_succ, List.map_cons, List.sum_cons, ih]
    ring

theorem jlen_append (a b : List Char) : jlen (a ++ b) = jlen a + jlen b := by
  unfold jlen
  rw [List.map_append, List.sum_append]

theorem jlen_cons (c : Char) (cs : List Char) :
    jlen (c :: cs) = cu16 c + jlen cs := by
  unfold jlen
  rw [List.map_cons, List.sum_cons]

theorem jlen_replicate (c : Char) (n : Nat) :
    jlen (List.replicate n c) = n * cu16 c :=
  sum_map_replicate cu16 c n

theorem utf8_replicate (c : Char) (n : Nat) :
    ((List.replicate n c).map cu8).sum = n * cu8 c :=
  sum_map_replicate cu8 c n

theorem escapeList_replicate (c : Char) (h : escapeChar c = [c]) :
    ∀ n, escapeList (List.replicate n c) = List.replicate n c := by
  intro n
  induction n with
  | zero => rfl
  | succ n ih =>
    rw [List.replicate_succ]
    show escapeChar c ++ escapeList (List.replicate n c) = _
    rw [h, ih]
    rfl

theorem strChars_str (s : String) :
    stringifyChars (.str s) = '"' :: escapeList s.data ++ ['"'] := rfl

theorem arrChars_cons (e : JValue) (es : List JValue) :
    stringifyChars (.arr (e :: es))
      = '[' :: stringifyChars e ++ stringifyArrTail es := rfl

theorem jlen_strPad : jlen (stringifyChars (.str bigPad)) = 100003 := by
  rw [strChars_str, jlen_append, jlen_cons]
  rw [show bigPad.data = List.replicate 100001 'a' from rfl]
  rw [escapeList_replicate 'a' (by decide), jlen_replicate]
  decide

theorem jlen_bigVal2 : jlenStr (stringifyStr bigVal2) = 100005 := by
  show jlen (stringifyChars (.arr [.str bigPad])) = 100005
  rw [arrChars_cons, jlen_append, jlen_cons, jlen_strPad]
  decide

theorem jlen_bigVal1 : jlenStr (stringifyStr bigVal1) = 100010 := by
  show jlen (stringifyChars (.arr [.null, .str bigPad])) = 100010
  rw [arrChars_cons, jlen_append, jlen_cons]
  rw [show stringifyArrTail [.str bigPad]
      = (',' :: stringifyChars (.str bigPad)) ++ stringifyArrTail [] from rfl]
  rw [jlen_append, jlen_cons, jlen_strPad]
  decide

theorem jlen_eVal : jlenStr (stringifyStr eVal) = 100003 := by
  show jlen (stringifyChars (.str ePad)) = 100003
  rw [strChars_str, jlen_append, jlen_cons]
  rw [show ePad.data = List.replicate 100001 (Char.ofNat 233) from rfl]
  rw [escapeList_replicate (Char.ofNat 233) (by decide), jlen_replicate]
  decide

theorem utf8_eVal : utf8Len (stringifyStr eVal) = 200004 := by
  show ((stringifyChars (.str ePad)).map cu8).sum = 200004
  rw [strChars_str]
  rw [show ePad.data = List.replicate 100001 (Char.ofNat 233) from rfl]
  rw [escapeList_replicate (Char.ofNat 233) (by decide)]
  rw [List.map_append, List.sum_append, List.map_cons, List.sum_cons,
    utf8_replicate]
  decide

/- association-list lemmas -/

theorem lookup_map_set {α : Type} (k : String) (v : α) :
    ∀ m : List (String × α), m.any (fun p => p.1 == k) = true →
      lookupAssoc (m.map (fun p => if p.1 == k then (k, v) else p)) k
        = some v := by
  intro m
  induction m with
  | nil => intro h; simp at h
  | cons p ps ih =>
    intro h
    rw [List.map_cons]
    cases hp : (p.1 == k) with
    | true =>
      rw [if_pos rfl]
      unfold lookupAssoc
      rw [List.find?_cons_of_pos _ (by simp)]
      rfl
    | false =>
      rw [if_neg (by decide)]
      unfold lookupAssoc
      rw [List.find?_cons_of_neg _ (by simp [hp])]
      have hps : ps.any (fun p => p.1 == k) = true := by
        rw [List.any_cons, hp] at h
        simpa using h
      exact ih hps

theorem lookup_setAssoc {α : Type} (m : List (String × α)) (k : String)
    (v : α) : lookupAssoc (setAssoc m k v) k = some v := by
  unfold setAssoc
  cases hany : m.any (fun p => p.1 == k) with
  | true =>
    rw [if_pos rfl]
    exact lookup_map_set k v m hany
  | false =>
    rw [if_neg (by decide)]
    unfold lookupAssoc
    rw [List.find?_append]
    have h1 : m.find? (fun p => p.1 == k) = none := by
      rw [List.find?_eq_none]
      intro p hp
      have := List.any_eq_false.mp hany p hp
      simpa using this
    rw [h1]
    simp [List.find?]

theorem entries_setAssoc_key {α : Type} (m : List (String × α))
    (k : String) (v : α) (r : String × α) (hr : r ∈ setAssoc m k v)
    (hk : r.1 = k) : r = (k, v) := by
  unfold setAssoc at hr
  cases hany : m.any (fun p => p.1 == k) with
  | true =>
    rw [hany, if_pos rfl] at hr
    obtain ⟨p, hp, he⟩ := List.mem_map.mp hr
    by_cases hpk : (p.1 == k) = true
    · rw [if_pos hpk] at he
      exact he.symm
    · rw [if_neg hpk] at he
      subst he
      exact absurd (by simp [hk]) hpk
  | false =>
    rw [hany, if_neg (by decide)] at hr
    cases List.mem_append.mp hr with
    | inl hin =>
      have := List.any_eq_false.mp hany r hin
      exact absurd (by simp [hk]) this
    | inr hin =>
      simpa using hin

theorem mem_setAssoc_of_ne {α : Type} (m : List (String × α)) (k : String)
    (v : α) (r : String × α) (hr : r ∈ m) (hk : r.1 ≠ k) :
    r ∈ setAssoc m k v := by
  unfold setAssoc
  cases hany : m.any (fun p => p.1 == k) with
  | true =>
    rw [if_pos rfl]
    have : (if r.1 == k then (k, v) else r) = r := by
      rw [if_neg (by simp [hk])]
    rw [← this]
    exact List.mem_map_of_mem _ hr
  | false =>
    rw [if_neg (by decide)]
    exact List.mem_append.mpr (Or.inl hr)

theorem mem_of_mem_setAssoc_ne {α : Type} (m : List (String × α))
    (k : String) (v : α) (r : String × α) (hr : r ∈ setAssoc m k v)
    (hk : r.1 ≠ k) : r ∈ m := by
  unfold setAssoc at hr
  cases hany : m.any (fun p => p.1 == k) with
  | true =>
    rw [hany, if_pos rfl] at hr
    obtain ⟨p, hp, he⟩ := List.mem_map.mp hr
    by_cases hpk : (p.1 == k) = true
    · rw [if_pos hpk] at he
      subst he
      exact absurd rfl hk
    · rw [if_neg hpk] at he
      subst he
      exact hp
  | false =>
    rw [hany, if_neg (by decide)] at hr
    cases List.mem_append.mp hr with
    | inl hin => exact hin
    | inr hin =>
      have : r = (k, v) := by simpa using hin
      rw [this] at hk
      exact absurd rfl hk

theorem lookup_filter_some {α : Type} (m : List (String × α)) (q) (k : String)
    (v : α) (h : lookupAssoc m k = some v)
    (hq : ∀ r ∈ m, r.1 = k → q r = true) :
    lookupAssoc (m.filter q) k = some v := by
  induction m with
  | nil => simp [lookupAssoc, List.find?] at h
  | cons p ps ih =>
    unfold lookupAssoc at h
    cases hp : (p.1 == k) with
    | true =>
      rw [List.find?_cons_of_pos _ (by simp [hp])] at h
      have hpk : p.1 = k := by simpa using hp
      have hqp : q p = true := hq p (List.mem_cons_self p ps) hpk
      rw [List.filter_cons_of_pos hqp]
      unfold lookupAssoc
      rw [List.find?_cons_of_pos _ (by simp [hp])]
      simpa using h
    | false =>
      rw [List.find?_cons_of_neg _ (by simp [hp])] at h
      have hrec := ih h (fun r hr hk => hq r (List.mem_cons_of_mem p hr) hk)
      cases hqp : q p with
      | true =>
        rw [List.filter_cons_of_pos hqp]
        unfold lookupAssoc
        rw [List.find?_cons_of_neg _ (by simp [hp])]
        exact hrec
      | false =>
        rw [List.filter_cons_of_neg (by simp [hqp])]
        exact hrec

theorem lookup_filter_none {α : Type} (m : List (String × α)) (q)
    (k : String) (hq : ∀ r ∈ m, r.1 = k → q r = false) :
    lookupAssoc (m.filter q) k = none := by
  induction m with
  | nil => rfl
  | cons p ps ih =>
    have hrec := ih (fun r hr hk => hq r (List.mem_cons_of_mem p hr) hk)
    cases hp : (p.1 == k) with
    | true =>
      have hpk : p.1 = k := by simpa using hp
      rw [List.filter_cons_of_neg (by simp [hq p (List.mem_cons_self p ps) hpk])]
      exact hrec
    | false =>
      cases hqp : q p with
      | true =>
        rw [List.filter_cons_of_pos hqp]
        unfold lookupAssoc
        rw [List.find?_cons_of_neg _ (by simp [hp])]
        exact hrec
      | false =>
        rw [List.filter_cons_of_neg (by simp [hqp])]
        exact hrec

/- offload equations -/

theorem handleResponse_offload (now : Int) (fid : String)
    (data summary : JValue) (st : HState)
    (hsize : jlenStr (stringifyStr data) > MAX_RESPONSE_SIZE)
    (hsum : createSummary data = .ok summary) :
    handleResponse now fid data st
      = .ok (mkEnvelope fid (jlenStr (stringifyStr data)) summary,
          offState now fid data summary st) := by
  unfold handleResponse
  dsimp only
  rw [if_neg (by omega)]
  rw [hsum]
  rfl

theorem handleResponse_small (now : Int) (fid : String) (data : JValue)
    (st : HState) (hsize : jlenStr (stringifyStr data) ≤ MAX_RESPONSE_SIZE) :
    handleResponse now fid data st = .ok (data, st) := by
  unfold handleResponse
  dsimp only
  rw [if_pos hsize]

theorem lookup_offState_responses (now : Int) (fid : String)
    (data summary : JValue) (st : HState) :
    lookupAssoc (offState now fid data summary st).responses fid
      = some ⟨fid, now, jlenStr (stringifyStr data), summary⟩ := by
  unfold offState cleanupOldResponses
  dsimp only
  apply lookup_filter_some
  · exact lookup_setAssoc _ _ _
  · intro r hr hk
    have := entries_setAssoc_key _ _ _ r hr hk
    rw [this]
    dsimp only
    rw [decide_eq_false (by omega : ¬ (now < now - 3600000))]
    rfl

theorem not_contains_evict (now : Int) (fid : String)
    (data summary : JValue) (st : HState) :
    (((setAssoc st.responses fid
          ⟨fid, now, jlenStr (stringifyStr data), summary⟩).filter
        (fun p => decide (p.2.timestamp < now - 3600000))).map
      Prod.fst).contains fid = false := by
  cases hc : (((setAssoc st.responses fid
      ⟨fid, now, jlenStr (stringifyStr data), summary⟩).filter
        (fun p => decide (p.2.timestamp < now - 3600000))).map
      Prod.fst).contains fid with
  | false => rfl
  | true =>
    exfalso
    have hm := List.mem_of_elem_eq_true hc
    obtain ⟨r, hr, hfst⟩ := List.mem_map.mp hm
    obtain ⟨hrmem, hrold⟩ := List.mem_filter.mp hr
    have := entries_setAssoc_key _ _ _ r hrmem hfst
    rw [this] at hrold
    simp only [decide_eq_true_eq] at hrold
    omega

theorem lookup_offState_files (now : Int) (fid : String)
    (data summary : JValue) (st : HState) :
    lookupAssoc (offState now fid data summary st).files fid
      = some (stringifyStr data) := by
  unfold offState cleanupOldResponses
  dsimp only
  apply lookup_filter_some
  · exact lookup_setAssoc _ _ _
  · intro r hr hk
    rw [hk]
    rw [not_contains_evict now fid data summary st]
    rfl

theorem loadResponse_offState (now : Int) (fid : String)
    (data summary : JValue) (st : HState) :
    loadResponse (offState now fid data summary st) fid = .ok data := by
  unfold loadResponse
  rw [lookup_offState_responses, lookup_offState_files]
  dsimp only
  rw [parse_stringify]

theorem loadResponse_single (id : String) (md : StoredResponse)
    (content : String) (v : JValue) (hparse : parseTop content = some v) :
    loadResponse ⟨[(id, md)], [(id, content)]⟩ id = .ok v := by
  unfold loadResponse
  rw [show lookupAssoc [(id, md)] id = some md from by
    unfold lookupAssoc
    rw [List.find?_cons_of_pos _ (by simp)]
    rfl]
  rw [show lookupAssoc [(id, content)] id = some content from by
    unfold lookupAssoc
    rw [List.find?_cons_of_pos _ (by simp)]
    rfl]
  dsimp only
  rw [hparse]

theorem loadResponse_stBig : loadResponse stBig "r5" = .ok bigVal2 :=
  loadResponse_single "r5" ⟨"r5", 0, 100005, .obj []⟩ (stringifyStr bigVal2)
    bigVal2 (parse_stringify bigVal2)

theorem ascii_utf8_eq_jlen :
    ∀ cs : List Char, (∀ c ∈ cs, c.toNat < 128) →
      (cs.map cu8).sum = (cs.map cu16).sum := by
  intro cs
  induction cs with
  | nil => intro h; rfl
  | cons c cs ih =>
    intro h
    have hc := h c (List.mem_cons_self c cs)
    rw [List.map_cons, List.sum_cons, List.map_cons, List.sum_cons]
    rw [ih (fun d hd => h d (List.mem_cons_of_mem c hd))]
    have h8 : cu8 c = 1 := by unfold cu8; rw [if_pos hc]
    have h16 : cu16 c = 1 := by unfold cu16; rw [if_pos (by omega)]
    rw [h8, h16]

/-- C1 counterexample: the oversized array `bigVal1` crosses the gate but
`handleResponse` throws the `Object.keys(null)` TypeError instead of
returning an envelope. -/
theorem C1_counterexample :
    handleResponse 0 "f" bigVal1 ⟨[], []⟩
        = .error "Cannot convert undefined or null to object"
    ∧ jlenStr (stringifyStr bigVal1) > MAX_RESPONSE_SIZE := by
  constructor
  · unfold handleResponse
    dsimp only
    rw [if_neg (by rw [jlen_bigVal1]; decide)]
    rw [show createSummary bigVal1
        = .error "Cannot convert undefined or null to object" from rfl]
  · rw [jlen_bigVal1]
    decide

/-- C1 (amended): values at or under the threshold pass through with no
state change; oversized values whose summary succeeds are offloaded into
the envelope and the offload state; an oversized array with a null first
item propagates the summary TypeError instead; a successful navigation
result is re-gated, an oversized one re-offloaded via `handleResponse`
and a small one returned as-is. -/
theorem C1_theorem :
    (∀ (now : Int) (fid : String) (data : JValue) (st : HState),
      jlenStr (stringifyStr data) ≤ MAX_RESPONSE_SIZE →
      handleResponse now fid data st = .ok (data, st))
    ∧ (∀ (now : Int) (fid : String) (data summary : JValue) (st : HState),
      jlenStr (stringifyStr data) > MAX_RESPONSE_SIZE →
      createSummary data = .ok summary →
      handleResponse now fid data st
        = .ok (mkEnvelope fid (jlenStr (stringifyStr data)) summary,
            offState now fid data summary st))
    ∧ (∀ (now : Int) (fid : String) (data : JValue) (st : HState) (e : String),
      jlenStr (stringifyStr data) > MAX_RESPONSE_SIZE →
      createSummary data = .error e →
      handleResponse now fid data st = .error e)
    ∧ (∀ (now : Int) (fid : String) (st : HState) (id path : String)
        (root c : JValue),
      loadResponse st id = .ok root →
      navigateCore path root = .ok (some (.js c)) →
      jlenStr (stringifyStr c) > MAX_RESPONSE_SIZE →
      navigateResponse now fid st id path = handleResponse now fid c st)
    ∧ (∀ (now : Int) (fid : String) (st : HState) (id path : String)
        (root c : JValue),
      loadResponse st id = .ok root →
      navigateCore path root = .ok (some (.js c)) →
      jlenStr (stringifyStr c) ≤ MAX_RESPONSE_SIZE →
      navigateResponse now fid st id path = .ok (c, st)) := by
  refine ⟨?_, ?_, ?_, ?_, ?_⟩
  · intro now fid data st h
    exact handleResponse_small now fid data st h
  · intro now fid data summary st hsize hsum
    exact handleResponse_offload now fid data summary st hsize hsum
  · intro now fid data st e hsize hcs
    unfold handleResponse
    dsimp only
    rw [if_neg (by omega)]
    rw [hcs]
  · intro now fid st id path root c hload hcore hsize
    unfold navigateResponse
    rw [hload]
    dsimp only
    rw [hcore]
    dsimp only
    rw [show stringifyN (.js c) = some (stringifyStr c) from rfl]
    dsimp only
    rw [if_pos (by omega)]
    rfl
  · intro now fid st id path root c hload hcore hsize
    unfold navigateResponse
    rw [hload]
    dsimp only
    rw [hcore]
    dsimp only
    rw [show stringifyN (.js c) = some (stringifyStr c) from rfl]
    dsimp only
    rw [if_neg (by omega)]
    rfl

/-- C1 witness: the five gate behaviors at concrete small and oversized
values and stores. -/
theorem C1_theorem_witness :
    (handleResponse 5 "w" (.num 1) stA0 = .ok (.num 1, stA0))
    ∧ (handleResponse 5 "w" bigVal2 stA0
        = .ok (mkEnvelope "w" (jlenStr (stringifyStr bigVal2)) bigSum,
            offState 5 "w" bigVal2 bigSum stA0))
    ∧ (handleResponse 5 "w" bigVal1 stA0
        = .error "Cannot convert undefined or null to object")
    ∧ (navigateResponse 0 "w" stBig "r5" "" = handleResponse 0 "w" bigVal2 stBig)
    ∧ (navigateResponse 0 "w" stNav "r4" "a.b" = .ok (.num 42, stNav)) := by
  obtain ⟨t1, t2, t3, t4, t5⟩ := C1_theorem
  refine ⟨?_, ?_, ?_, ?_, ?_⟩
  · exact t1 5 "w" (.num 1) stA0 (by decide)
  · exact t2 5 "w" bigVal2 bigSum stA0 (by rw [jlen_bigVal2]; decide) rfl
  · exact t3 5 "w" bigVal1 stA0 "Cannot convert undefined or null to object"
      (by rw [jlen_bigVal1]; decide) rfl
  · exact t4 0 "w" stBig "r5" "" bigVal2 bigVal2 loadResponse_stBig
      (by unfold navigateCore; rw [if_pos rfl]) (by rw [jlen_bigVal2]; decide)
  · exact t5 0 "w" stNav "r4" "a.b" navRoot (.num 42) rfl rfl (by decide)

/-- C2 counterexample: the oversized `bigVal1` yields no envelope and no
stored file at all — offload dies in `createSummary`. -/
theorem C2_counterexample :
    handleResponse 7 "g" bigVal1 stA0
        = .error "Cannot convert undefined or null to object"
    ∧ jlenStr (stringifyStr bigVal1) = 100010 := by
  constructor
  · unfold handleResponse
    dsimp only
    rw [if_neg (by rw [jlen_bigVal1]; decide)]
    rw [show createSummary bigVal1
        = .error "Cannot convert undefined or null to object" from rfl]
  · exact jlen_bigVal1

/-- C2 (amended): for an oversized value whose summary succeeds, offload
returns the envelope carrying the fresh id, writes exactly the
serialization under that id, records the metadata entry, and loading the
id back parses the file to a value equal to the original. -/
theorem C2_theorem :
    ∀ (now : Int) (fid : String) (data summary : JValue) (st : HState),
      jlenStr (stringifyStr data) > MAX_RESPONSE_SIZE →
      createSummary data = .ok summary →
      handleResponse now fid data st
          = .ok (mkEnvelope fid (jlenStr (stringifyStr data)) summary,
              offState now fid data summary st)
      ∧ jsGetD (mkEnvelope fid (jlenStr (stringifyStr data)) summary)
          "response_id" = .str fid
      ∧ lookupAssoc (offState now fid data summary st).files fid
          = some (stringifyStr data)
      ∧ lookupAssoc (offState now fid data summary st).responses fid
          = some ⟨fid, now, jlenStr (stringifyStr data), summary⟩
      ∧ loadResponse (offState now fid data summary st) fid = .ok data := by
  intro now fid data summary st hsize hsum
  exact ⟨handleResponse_offload now fid data summary st hsize hsum, rfl,
    lookup_offState_files now fid data summary st,
    lookup_offState_responses now fid data summary st,
    loadResponse_offState now fid data summary st⟩

/-- C2 witness: the offload round-trip at the concrete oversized
`bigVal2` from the empty store. -/
theorem C2_theorem_witness :
    (handleResponse 3 "h" bigVal2 ⟨[], []⟩
        = .ok (mkEnvelope "h" (jlenStr (stringifyStr bigVal2)) bigSum,
            offState 3 "h" bigVal2 bigSum ⟨[], []⟩))
    ∧ loadResponse (offState 3 "h" bigVal2 bigSum ⟨[], []⟩) "h" = .ok bigVal2 :=
  ⟨(C2_theorem 3 "h" bigVal2 bigSum ⟨[], []⟩
      (by rw [jlen_bigVal2]; decide) rfl).1,
   (C2_theorem 3 "h" bigVal2 bigSum ⟨[], []⟩
      (by rw [jlen_bigVal2]; decide) rfl).2.2.2.2⟩

/-- C5: after a completed offload every surviving metadata entry is at
most one hour old; a stale entry (other than one overwritten by the
fresh id itself) is gone from the file map, and — under the Map key
uniqueness a JS Map guarantees — from the metadata index too. -/
theorem C5_theorem :
    ∀ (now : Int) (fid : String) (data : JValue) (st : HState)
      (res : JValue) (st2 : HState),
      jlenStr (stringifyStr data) > MAX_RESPONSE_SIZE →
      handleResponse now fid data st = .ok (res, st2) →
      (∀ p ∈ st2.responses, now - 3600000 ≤ p.2.timestamp)
      ∧ (∀ p ∈ st.responses, p.2.timestamp < now - 3600000 → p.1 ≠ fid →
          lookupAssoc st2.files p.1 = none)
      ∧ ((st.responses.map Prod.fst).Nodup →
          ∀ p ∈ st.responses, p.2.timestamp < now - 3600000 → p.1 ≠ fid →
          lookupAssoc st2.responses p.1 = none) := by
  intro now fid data st res st2 hsize hres
  unfold handleResponse at hres
  dsimp only at hres
  rw [if_neg (by omega)] at hres
  cases hcs : createSummary data with
  | error e =>
    rw [hcs] at hres
    exact absurd hres (by simp)
  | ok summary =>
    rw [hcs] at hres
    dsimp only at hres
    cases hres
    refine ⟨?_, ?_, ?_⟩
    · intro p hp
      unfold cleanupOldResponses at hp
      dsimp only at hp
      have h2 := (List.mem_filter.mp hp).2
      simp only [Bool.not_eq_true'] at h2
      have h3 := of_decide_eq_false h2
      omega
    · intro p hp hold hne
      unfold cleanupOldResponses
      dsimp only
      apply lookup_filter_none
      intro r hr hk
      have hmem : p ∈ setAssoc st.responses fid
          ⟨fid, now, jlenStr (stringifyStr data), summary⟩ :=
        mem_setAssoc_of_ne _ _ _ p hp hne
      have hpf : p ∈ (setAssoc st.responses fid
          ⟨fid, now, jlenStr (stringifyStr data), summary⟩).filter
            (fun p => decide (p.2.timestamp < now - 3600000)) :=
        List.mem_filter.mpr ⟨hmem, by simpa using hold⟩
      have hcont : (((setAssoc st.responses fid
          ⟨fid, now, jlenStr (stringifyStr data), summary⟩).filter
            (fun p => decide (p.2.timestamp < now - 3600000))).map
          Prod.fst).contains p.1 = true :=
        List.elem_eq_true_of_mem (List.mem_map_of_mem _ hpf)
      show (!(((setAssoc st.responses fid
          ⟨fid, now, jlenStr (stringifyStr data), summary⟩).filter
            (fun p => decide (p.2.timestamp < now - 3600000))).map
          Prod.fst).contains r.1) = false
      rw [hk, hcont]
      rfl
    · intro hnodup p hp hold hne
      unfold cleanupOldResponses
      dsimp only
      apply lookup_filter_none
      intro r hr hk
      have hrne : r.1 ≠ fid := by rw [hk]; exact hne
      have hrmem : r ∈ st.responses := mem_of_mem_setAssoc_ne _ _ _ r hr hrne
      have hrp : r = p := List.inj_on_of_nodup_map hnodup hrmem hp (by rw [hk])
      rw [hrp]
      show (!decide (p.2.timestamp < now - 3600000)) = false
      rw [decide_eq_true hold]
      rfl

/-- C5 witness: offloading `bigVal2` at time 0 over a store holding an
entry stamped -4000000 evicts that entry from both maps. -/
theorem C5_theorem_witness :
    lookupAssoc (offState 0 "f" bigVal2 bigSum stOld).files "old" = none
    ∧ lookupAssoc (offState 0 "f" bigVal2 bigSum stOld).responses "old"
        = none := by
  have h := C5_theorem 0 "f" bigVal2 stOld
    (mkEnvelope "f" (jlenStr (stringifyStr bigVal2)) bigSum)
    (offState 0 "f" bigVal2 bigSum stOld)
    (by rw [jlen_bigVal2]; decide)
    (handleResponse_offload 0 "f" bigVal2 bigSum stOld
      (by rw [jlen_bigVal2]; decide) rfl)
  exact ⟨h.2.1 ("old", ⟨"old", -4000000, 5, .obj []⟩)
      (List.mem_cons_self _ _) (by decide) (by decide),
    h.2.2 (by decide) ("old", ⟨"old", -4000000, 5, .obj []⟩)
      (List.mem_cons_self _ _) (by decide) (by decide)⟩

/-- C8 counterexample: the all-U+00E9 value records size 100003 — its
UTF-16 length — while the file written for it is 200004 bytes of
UTF-8. -/
theorem C8_counterexample :
    handleResponse 0 "f" eVal ⟨[], []⟩
        = .ok (mkEnvelope "f" 100003 (.obj []),
            offState 0 "f" eVal (.obj []) ⟨[], []⟩)
    ∧ lookupAssoc (offState 0 "f" eVal (.obj []) ⟨[], []⟩).responses "f"
        = some ⟨"f", 0, 100003, .obj []⟩
    ∧ utf8Len (stringifyStr eVal) = 200004 := by
  refine ⟨?_, ?_, utf8_eVal⟩
  · have h := handleResponse_offload 0 "f" eVal (.obj []) ⟨[], []⟩
      (by rw [jlen_eVal]; decide) rfl
    rw [jlen_eVal] at h
    exact h
  · have h := lookup_offState_responses 0 "f" eVal (.obj []) ⟨[], []⟩
    rw [jlen_eVal] at h
    exact h

/-- C8 (amended): the recorded size is the UTF-16 `.length` of the exact
serialization stored in the file map (equal to the byte count only for
ASCII-only serializations), and query, export and small-result
navigation leave the store untouched. -/
theorem C8_theorem :
    (∀ (now : Int) (fid : String) (data summary : JValue) (st : HState),
      jlenStr (stringifyStr data) > MAX_RESPONSE_SIZE →
      createSummary data = .ok summary →
      handleResponse now fid data st
          = .ok (mkEnvelope fid (jlenStr (stringifyStr data)) summary,
              offState now fid data summary st)
      ∧ lookupAssoc (offState now fid data summary st).responses fid
          = some ⟨fid, now, jlenStr (stringifyStr data), summary⟩
      ∧ lookupAssoc (offState now fid data summary st).files fid
          = some (stringifyStr data))
    ∧ (∀ s : String, (∀ c ∈ s.data, c.toNat < 128) → utf8Len s = jlenStr s)
    ∧ (∀ (dp : JValue → Option Int) (now : Int) (fid : String) (st : HState)
        (id : String) (q : QuerySpec) (data : JValue) (st1 : HState)
        (v : JValue) (st2 : HState),
      navigateResponse now fid st id (q.path.getD "") = .ok (data, st1) →
      queryResponse dp now fid st id q = .ok (v, st2) → st2 = st1)
    ∧ (∀ (now : Int) (fid : String) (st : HState) (id out : String)
        (opts : Option ExportOptions) (data : JValue) (st1 : HState)
        (m c : String) (st2 : HState),
      navigateResponse now fid st id ((opts.bind ExportOptions.path).getD "")
          = .ok (data, st1) →
      exportResponse now fid st id out opts = .ok (m, c, st2) → st2 = st1)
    ∧ (∀ (now : Int) (fid : String) (st : HState) (id path : String)
        (root c : JValue),
      loadResponse st id = .ok root →
      navigateCore path root = .ok (some (.js c)) →
      jlenStr (stringifyStr c) ≤ MAX_RESPONSE_SIZE →
      navigateResponse now fid st id path = .ok (c, st))
    ∧ (∀ (now : Int) (fid : String) (st : HState) (id path : String)
        (root c : JValue),
      loadResponse st id = .ok root →
      navigateCore path root = .ok (some (.js c)) →
      jlenStr (stringifyStr c) > MAX_RESPONSE_SIZE →
      navigateResponse now fid st id path = handleResponse now fid c st) := by
  refine ⟨?_, ?_, ?_, ?_, ?_, ?_⟩
  · intro now fid data summary st hsize hsum
    exact ⟨handleResponse_offload now fid data summary st hsize hsum,
      lookup_offState_responses now fid data summary st,
      lookup_offState_files now fid data summary st⟩
  · intro s h
    show (s.data.map cu8).sum = (s.data.map cu16).sum
    exact ascii_utf8_eq_jlen s.data h
  · intro dp now fid st id q data st1 v st2 hnav hq
    unfold queryResponse at hq
    rw [hnav] at hq
    dsimp only at hq
    cases ht : jsTruthy data with
    | false =>
      rw [ht] at hq
      simp at hq
    | true =>
      rw [ht] at hq
      cases data with
      | arr es =>
        simp only [Bool.not_true] at hq
        rw [if_neg (by decide)] at hq
        dsimp only at hq
        cases hq
        rfl
      | null => simp [jsTruthy] at ht
      | bool b =>
        simp only [Bool.not_true] at hq
        rw [if_neg (by decide)] at hq
        dsimp only at hq
        cases hq
        rfl
      | num i =>
        simp only [Bool.not_true] at hq
        rw [if_neg (by decide)] at hq
        dsimp only at hq
        cases hq
        rfl
      | str s =>
        simp only [Bool.not_true] at hq
        rw [if_neg (by decide)] at hq
        dsimp only at hq
        cases hq
        rfl
      | obj fs =>
        simp only [Bool.not_true] at hq
        rw [if_neg (by decide)] at hq
        dsimp only at hq
        cases hq
        rfl
  · intro now fid st id out opts data st1 m c st2 hnav hq
    unfold exportResponse at hq
    rw [hnav] at hq
    dsimp only at hq
    cases data with
    | arr es =>
      dsimp only at hq
      cases hf : (opts.bind ExportOptions.format == some "csv") with
      | true =>
        rw [hf] at hq
        rw [if_pos (show (true : Bool) = true from rfl)] at hq
        cases hr : es.mapM (csvRow (csvHeaders es)) with
        | error e =>
          rw [hr] at hq
          simp at hq
        | ok rows =>
          rw [hr] at hq
          dsimp only at hq
          cases hq
          rfl
      | false =>
        rw [hf] at hq
        rw [if_neg (by decide)] at hq
        cases hq
        rfl
    | null => cases hq; rfl
    | bool b => cases hq; rfl
    | num i => cases hq; rfl
    | str s => cases hq; rfl
    | obj fs => cases hq; rfl
  · intro now fid st id path root c hload hcore hsize
    unfold navigateResponse
    rw [hload]
    dsimp only
    rw [hcore]
    dsimp only
    rw [show stringifyN (.js c) = some (stringifyStr c) from rfl]
    dsimp only
    rw [if_neg (by omega)]
    rfl
  · intro now fid st id path root c hload hcore hsize
    unfold navigateResponse
    rw [hload]
    dsimp only
    rw [hcore]
    dsimp only
    rw [show stringifyN (.js c) = some (stringifyStr c) from rfl]
    dsimp only
    rw [if_pos (by omega)]
    rfl

/-- C8 witness: the size recording at the concrete non-ASCII value and
the state preservation of the concrete query, export and navigation
calls. -/
theorem C8_theorem_witness :
    (lookupAssoc (offState 2 "k" eVal (.obj []) ⟨[], []⟩).responses "k"
        = some ⟨"k", 2, jlenStr (stringifyStr eVal), .obj []⟩)
    ∧ utf8Len "abc" = jlenStr "abc"
    ∧ stItems = stItems
    ∧ stRows = stRows
    ∧ navigateResponse 1 "n" stNav "r4" "items[2]" = .ok (.num 30, stNav)
    ∧ navigateResponse 3 "n" stBig "r5" ""
        = handleResponse 3 "n" bigVal2 stBig := by
  obtain ⟨t1, t2, t3, t4, t5, t6⟩ := C8_theorem
  refine ⟨?_, ?_, ?_, ?_, ?_, ?_⟩
  · exact (t1 2 "k" eVal (.obj []) ⟨[], []⟩ (by rw [jlen_eVal]; decide)
      rfl).2.1
  · exact t2 "abc" (by decide)
  · exact t3 (fun _ => none) 0 "q" stItems "r2" { path := some "items" }
      (.arr itemsList) stItems
      (mkQueryResult (appliedFilter (fun _ => none)
        { path := some "items" } itemsList) 0 20) stItems rfl rfl
  · exact t4 0 "e" stRows "r3" "/o.csv" (some { format := some "csv" })
      (.arr [.obj [.mk "a" (.num 0)], .obj [.mk "a" (.num 1)]]) stRows
      ("Exported " ++ natStr 2 ++ " items to " ++ "/o.csv")
      (String.intercalate "\n"
        (String.intercalate ","
          (csvHeaders [.obj [.mk "a" (.num 0)], .obj [.mk "a" (.num 1)]])
          :: ["\"\"", "1"])) stRows rfl rfl
  · exact t5 1 "n" stNav "r4" "items[2]" navRoot (.num 30) rfl rfl (by decide)
  · exact t6 3 "n" stBig "r5" "" bigVal2 bigVal2 loadResponse_stBig
      (by unfold navigateCore; rw [if_pos rfl]) (by rw [jlen_bigVal2]; decide)

end LRH
